import Mathlib

/-!
# wadjet: slash-command dispatcher and the `reqrep` response helpers

A shallow embedding of `main.go` (`Handler.ServeHTTP`, `Commands`, `TestCommand`) and of
`pkg/reqrep/reqrep.go` (`JSON`, `Error`, `Code`, `AllowMethods`, `TrapError`, ...).

Conventions of the embedding:

* an `http.ResponseWriter` is a recorder: the current header map and the ordered list of
  `WriteHeader` / `Write` calls made on it;
* third-party and standard-library routines the program calls (`slack.NewSecretsVerifier`,
  `SecretsVerifier.Ensure`, `slack.SlashCommandParse`, `shlex.Split`, `json.Marshal` on a
  `slack.Msg`, the JSON string encoder, the verbs `%q`, `%v` and `%+v`, `flag.FlagSet.Parse`,
  `strings.ToUpper`)
  are parameters, collected in `Lib`; every theorem holds for all of them;
* the calls that matter for ordering (verifier construction, form parsing, signature
  finalization, tokenization, handler invocation, log lines) are recorded in an event list.
-/

namespace Wadjet

/-! ## Go values -/

/-- Go `error` values: `flag.ErrHelp`, a plain error, or an error wrapping another one
(`fmt.Errorf("...%w", inner)`, the text being the complete message). -/
inductive GoError where
  | errHelp : GoError
  | text (s : String) : GoError
  | wrap (s : String) (inner : GoError) : GoError
  deriving Repr, DecidableEq

/-- The method `Error()`. -/
def GoError.Error : GoError → String
  | .errHelp => "flag: help requested"
  | .text s => s
  | .wrap s _ => s

/-- The test `errors.Is(err, flag.ErrHelp)`: the error is `flag.ErrHelp` or wraps it. -/
def GoError.isErrHelp : GoError → Bool
  | .errHelp => true
  | .text _ => false
  | .wrap _ inner => inner.isErrHelp

/-- The condition `err != nil && !errors.Is(err, flag.ErrHelp)` of `ServeHTTP`. -/
def fatal : Option GoError → Bool
  | none => false
  | some err => !err.isErrHelp

/-- The function `strings.HasPrefix`. -/
def HasPrefix (s pre : String) : Bool :=
  pre.data.isPrefixOf s.data

/-- The function `strings.TrimPrefix`: drops `pre` once from the front of `s` when present. -/
def TrimPrefix (s pre : String) : String :=
  if HasPrefix s pre then ⟨s.data.drop pre.data.length⟩ else s

/-- The function `strconv.Itoa`. -/
def Itoa (n : Int) : String :=
  toString n

/-- The builtin `len` on a Go string or byte slice: the number of bytes. -/
def len (s : String) : Int :=
  (s.utf8ByteSize : Int)

/-! ## HTTP model -/

/-- The type `http.Header`: the values stored under each key (no entry is the empty list). -/
abbrev Header := String → List String

/-- The method `Header.Set`. -/
def Header.Set (h : Header) (key value : String) : Header :=
  fun k => if k = key then [value] else h k

/-- The method `Header.Add`. -/
def Header.Add (h : Header) (key value : String) : Header :=
  fun k => if k = key then h k ++ [value] else h k

/-- The method `Header.Values`. -/
def Header.Values (h : Header) (key : String) : List String :=
  h key

/-- The empty header map. -/
def Header.empty : Header :=
  fun _ => []

/-- A call made on the body side of an `http.ResponseWriter`. -/
inductive WCall where
  | writeHeader (code : Int) : WCall
  | write (p : String) : WCall
  deriving Repr, DecidableEq

/-- An `http.ResponseWriter`, as a recorder of what was done to it. -/
structure ResponseWriter where
  header : Header
  calls : List WCall

/-- A response writer on which nothing has happened yet. -/
def ResponseWriter.fresh : ResponseWriter :=
  ⟨Header.empty, []⟩

/-- The call `w.Header().Set(key, value)`. -/
def ResponseWriter.HeaderSet (w : ResponseWriter) (key value : String) : ResponseWriter :=
  { w with header := w.header.Set key value }

/-- The call `w.Header().Add(key, value)`. -/
def ResponseWriter.HeaderAdd (w : ResponseWriter) (key value : String) : ResponseWriter :=
  { w with header := w.header.Add key value }

/-- The call `w.WriteHeader(code)`. -/
def ResponseWriter.WriteHeader (w : ResponseWriter) (code : Int) : ResponseWriter :=
  { w with calls := w.calls ++ [.writeHeader code] }

/-- The call `w.Write(p)`. -/
def ResponseWriter.Write (w : ResponseWriter) (p : String) : ResponseWriter :=
  { w with calls := w.calls ++ [.write p] }

/-- The HTTP status of the response: the code of the first `WriteHeader`, or 200 when the
body was written first; `none` while nothing has been written. -/
def ResponseWriter.status (w : ResponseWriter) : Option Int :=
  match w.calls with
  | [] => none
  | .writeHeader code :: _ => some code
  | .write _ :: _ => some 200

/-- The payloads of the `Write` calls, in order. -/
def ResponseWriter.writes (w : ResponseWriter) : List String :=
  w.calls.filterMap fun c =>
    match c with
    | .write p => some p
    | .writeHeader _ => none

/-- The response body: everything written, concatenated. -/
def ResponseWriter.body (w : ResponseWriter) : String :=
  String.join w.writes

/-- The type `context.Context`; the dispatcher only passes it on. -/
structure Context where
  cancelled : Bool := false
  deriving Repr, DecidableEq

/-- The parts of an `http.Request` the program reads. -/
structure Request where
  Method : String
  Header : Header
  Body : String
  ctx : Context := {}

/-! ## Slack and flag types -/

/-- The type `slack.Msg`: the two fields the dispatcher sets, and `Extra` for every other
field (their zero value is the empty list). -/
structure Msg where
  Text : String
  ResponseType : String
  Extra : List (String × String) := []
  deriving Repr, DecidableEq

/-- The constant `slack.ResponseTypeEphemeral`. -/
def ResponseTypeEphemeral : String :=
  "ephemeral"

/-- The type `slack.SlashCommand`: the fields the dispatcher reads. -/
structure SlashCommand where
  Command : String
  Text : String
  deriving Repr, DecidableEq

/-- The type `slack.SecretsVerifier`: what it was built from, and the bytes written to it. -/
structure SecretsVerifier where
  signature : String
  stamp : String
  secret : String
  written : String
  deriving Repr, DecidableEq

/-- The method `SecretsVerifier.Write`, reached through the `io.TeeReader`. -/
def SecretsVerifier.Write (v : SecretsVerifier) (p : String) : SecretsVerifier :=
  { v with written := v.written ++ p }

/-- The type `flag.ErrorHandling`. -/
inductive ErrorHandling where
  | ContinueOnError : ErrorHandling
  | ExitOnError : ErrorHandling
  | PanicOnError : ErrorHandling
  deriving Repr, DecidableEq

/-- The type `flag.FlagSet`, with the contents of the buffer its output goes to. -/
structure FlagSet where
  name : String
  errorHandling : ErrorHandling
  output : String
  args : List String
  deriving Repr, DecidableEq

/-- The calls `flag.NewFlagSet(name, errorHandling)` and `flags.SetOutput(&buf)` on a new,
empty buffer. -/
def NewFlagSet (name : String) (errorHandling : ErrorHandling) : FlagSet :=
  ⟨name, errorHandling, "", []⟩

/-- The call `fmt.Fprintf(flags.Output(), ...)`, with the formatted text. -/
def FlagSet.Fprintf (f : FlagSet) (s : String) : FlagSet :=
  { f with output := f.output ++ s }

/-- The type `Command`: the handler gets the context, the flag set and the arguments, and
gives back the flag set (whose output buffer holds what it printed), the reply and the
error. -/
abbrev Command := Context → FlagSet → List String → FlagSet × Option Msg × Option GoError

/-- The library routines the program calls. -/
structure Lib where
  /-- The constructor `slack.NewSecretsVerifier(header, secret)`. -/
  NewSecretsVerifier : Header → String → Except GoError SecretsVerifier
  /-- The method `SecretsVerifier.Ensure`; `none` is a nil error. -/
  Ensure : SecretsVerifier → Option GoError
  /-- The function `slack.SlashCommandParse`: the bytes it read from the body, and its
  result. -/
  SlashCommandParse : Request → String × Except GoError SlashCommand
  /-- The function `shlex.Split`. -/
  Split : String → Except GoError (List String)
  /-- The function `json.Marshal` on a `*slack.Msg`. -/
  MarshalMsg : Msg → Except GoError String
  /-- How `encoding/json` writes a string value. -/
  jsonString : String → String
  /-- The verb `%q` on a string. -/
  quote : String → String
  /-- The method `flag.FlagSet.Parse`. -/
  FlagParse : FlagSet → List String → FlagSet × Option GoError
  /-- The verb `%# v` on a string slice. -/
  fmtSharpV : List String → String
  /-- The verb `%v` on an error: `Error()` unless the error formats itself. -/
  fmtV : GoError → String
  /-- The verb `%+v` on an error: `Error()` unless the error formats itself, as errors
  that carry a stack trace do. -/
  fmtPlusV : GoError → String
  /-- The function `strings.ToUpper`. -/
  ToUpper : String → String

/-! ## Package reqrep -/

/-- What is handed to `JSON` as `msg interface{}`: the anonymous struct of `Error`, the
anonymous struct of `Code`, or a `*slack.Msg`. -/
inductive Payload where
  | errorResp (code : Int) (message : String) : Payload
  | codeResp (code : Int) (message : String) : Payload
  | slackMsg (m : Msg) : Payload
  deriving Repr, DecidableEq

/-- The JSON text of the struct of `Error`: fields `code` and `error`. -/
def errorBody (L : Lib) (code : Int) (message : String) : String :=
  "\x7b\"code\":" ++ Itoa code ++ ",\"error\":" ++ L.jsonString message ++ "\x7d"

/-- The JSON text of the struct of `Code`: field `code`, and `message` unless it is empty
(`omitempty`). -/
def codeBody (L : Lib) (code : Int) (message : String) : String :=
  "\x7b\"code\":" ++ Itoa code ++
    (if message = "" then "" else ",\"message\":" ++ L.jsonString message) ++ "\x7d"

/-- The call `json.Marshal(msg)`. -/
def jsonMarshal (L : Lib) : Payload → Except GoError String
  | .errorResp code message => .ok (errorBody L code message)
  | .codeResp code message => .ok (codeBody L code message)
  | .slackMsg m => L.MarshalMsg m

/-- The function `reqrep.JSON`. -/
def JSON (L : Lib) (w : ResponseWriter) (code : Int) (msg : Payload) :
    ResponseWriter × Option GoError :=
  match jsonMarshal L msg with
  | .error err =>
    (w.WriteHeader 500, some (.wrap ("unable to encode response: " ++ err.Error) err))
  | .ok p =>
    let w := w.HeaderSet "Content-Type" "application/json; charset=utf-8"
    let w := w.HeaderSet "Content-Length" (Itoa (len p))
    let w := w.WriteHeader code
    let w := w.Write p
    (w, none)

/-- The function `reqrep.Error`. -/
def Error (L : Lib) (w : ResponseWriter) (code : Int) (msg : String) :
    ResponseWriter × Option GoError :=
  JSON L w code (.errorResp code msg)

/-- The function `reqrep.Errorf`, given the text `fmt.Sprintf(format, args...)`. -/
def Errorf (L : Lib) (w : ResponseWriter) (code : Int) (formatted : String) :
    ResponseWriter × Option GoError :=
  Error L w code formatted

/-- The function `reqrep.Code`. -/
def Code (L : Lib) (w : ResponseWriter) (code : Int) (msg : String) :
    ResponseWriter × Option GoError :=
  JSON L w code (.codeResp code msg)

/-- What happened while a request was served, in order. -/
inductive Event where
  | newVerifier : Event
  | parse : Event
  | ensure : Event
  | split : Event
  | invoke (name : String) : Event
  | log (line : String) : Event
  deriving Repr, DecidableEq

/-- The outcome of serving a request: the response writer and the recorded events. -/
structure World where
  w : ResponseWriter
  events : List Event

/-- The type `http.Handler`. -/
abbrev HttpHandler := ResponseWriter → Request → World

/-- The loop of `AllowMethods` over `methods`: `want` is the set of upper-cased methods,
`allowed` lists them in order of first appearance. -/
def AllowMethods.collect (L : Lib) (methods : List String) :
    List String × List String :=
  methods.foldl
    (fun (st : List String × List String) method =>
      let method := L.ToUpper method
      if method ∈ st.1 then st else (method :: st.1, st.2 ++ [method]))
    ([], [])

/-- The map `want` of `AllowMethods`, as the list of its keys. -/
def AllowMethods.want (L : Lib) (methods : List String) : List String :=
  (AllowMethods.collect L methods).1

/-- The slice `allowed` of `AllowMethods` after `sort.Strings(allowed)`. -/
def AllowMethods.allowed (L : Lib) (methods : List String) : List String :=
  (AllowMethods.collect L methods).2.insertionSort (fun a b => a ≤ b)

/-- The closure `invalidate` of `AllowMethods`. -/
def AllowMethods.invalidate (L : Lib) (methods : List String)
    (w : ResponseWriter) (req : Request) : ResponseWriter × Bool :=
  if req.Method ∈ AllowMethods.want L methods then
    (w, false)
  else
    let w := (AllowMethods.allowed L methods).foldl
      (fun w method => w.HeaderAdd "Allow" method) w
    ((Error L w 405 "method not allowed").1, true)

/-- The function `reqrep.AllowMethods(methods...)` applied to `next`. -/
def AllowMethods (L : Lib) (methods : List String)
    (next : HttpHandler) : HttpHandler :=
  fun w req =>
    match AllowMethods.invalidate L methods w req with
    | (w, true) => ⟨w, []⟩
    | (_, false) => next w req

/-- The variable `reqrep.AllowPOST`. -/
def AllowPOST (L : Lib) : HttpHandler → HttpHandler :=
  AllowMethods L ["POST"]

/-- The type `reqrep.HTTPError`. -/
structure HTTPError where
  Code : Int
  Err : String
  deriving Repr, DecidableEq

/-- The function `reqrep.NewHTTPError`, given the text `fmt.Sprintf(format, args...)`. -/
def NewHTTPError (code : Int) (formatted : String) : HTTPError :=
  ⟨code, formatted⟩

/-- What `recover()` gives back: nil, a `*HTTPError`, another `error`, or a value that is
not an error at all (a string, a number, ...). -/
inductive PanicValue where
  | nil : PanicValue
  | httpError (e : HTTPError) : PanicValue
  | error (e : GoError) : PanicValue
  | other (descr : String) : PanicValue
  deriving Repr, DecidableEq

/-- The function `reqrep.Bail`: the value it panics with. -/
def Bail (code : Int) (formatted : String) : PanicValue :=
  .httpError (NewHTTPError code formatted)

/-- The function `reqrep.TrapError` on the value `recover()` returned: a type switch with
the cases `nil`, `*HTTPError` and `error`, and no default. -/
def TrapError (L : Lib) (w : ResponseWriter) (recovered : PanicValue) : ResponseWriter :=
  match recovered with
  | .nil => w
  | .httpError err => (Error L w err.Code err.Err).1
  | .error err => (Error L w 500 ("unexpected error: " ++ err.Error)).1
  | .other _ => w

/-! ## Package main -/

/-- The type `Handler`. -/
structure Handler where
  slackSignature : String

/-- The function `TestCommand`. -/
def TestCommand (L : Lib) : Command :=
  fun _ctx flags args =>
    match L.FlagParse flags args with
    | (flags, some err) => (flags, none, some err)
    | (flags, none) => (flags.Fprintf ("Args: " ++ L.fmtSharpV flags.args), none, none)

/-- The variable `Commands`. -/
def Commands (L : Lib) : List (String × Command) :=
  [("test", TestCommand L)]

/-- The method `Handler.ServeHTTP`, over a registry `Commands`. -/
def ServeHTTP (L : Lib) (Commands : List (String × Command)) (h : Handler)
    (w : ResponseWriter) (req : Request) : World :=
  -- Capture the request body to check the signature.
  let built : Except GoError (Option SecretsVerifier × List Event) :=
    if h.slackSignature ≠ "" then
      match L.NewSecretsVerifier req.Header h.slackSignature with
      | .error err => .error err
      | .ok verifier => .ok (some verifier, [.newVerifier])
    else .ok (none, [])
  match built with
  | .error err => ⟨(Error L w 400 err.Error).1, [.newVerifier]⟩
  | .ok (verifier, ev) =>
    -- Parse the slash command from the form body; the tee feeds what is read to the verifier.
    let (read, parsed) := L.SlashCommandParse req
    let verifier := verifier.map (fun v => v.Write read)
    let ev := ev ++ [Event.parse]
    match parsed with
    | .error err =>
      ⟨(Error L w 400 "invalid slash request").1,
        ev ++ [.log ("Error parsing request: " ++ L.fmtPlusV err)]⟩
    | .ok cmd =>
      -- Check that the body hashes correctly.
      let ensured : Option GoError × List Event :=
        match verifier with
        | none => (none, ev)
        | some v => (L.Ensure v, ev ++ [.ensure])
      match ensured with
      | (some err, ev) =>
        ⟨(Error L w 401 "signature does not match request").1,
          ev ++ [.log ("Error validating request: " ++ L.fmtPlusV err)]⟩
      | (none, ev) =>
        -- Parse arguments to the command.
        let ev := ev ++ [Event.split]
        match L.Split cmd.Text with
        | .error err =>
          ⟨(Errorf L w 400 ("unable to parse command arguments: " ++ L.fmtV err)).1, ev⟩
        | .ok args =>
          -- Look up the command to run.
          let cmdName := TrimPrefix cmd.Command "/"
          match Commands.lookup cmdName with
          | none => ⟨(Errorf L w 400 ("unrecognized command " ++ L.quote cmdName)).1, ev⟩
          | some prog =>
            -- Allocate a flag set whose output is captured in a buffer, and run the command.
            let flags := NewFlagSet cmdName .ContinueOnError
            let ev := ev ++ [Event.invoke cmdName]
            match prog req.ctx flags args with
            | (flags, msg, err) =>
              let buf := flags.output
              if fatal err then
                -- Exit due to an error.
                ⟨(Errorf L w 500 ("error running command " ++ L.quote cmd.Command ++ ": " ++
                  (err.map L.fmtPlusV).getD "")).1, ev⟩
              else
                let msg : Option Msg :=
                  if 0 < len buf ∧ msg = none then
                    some { Text := buf, ResponseType := ResponseTypeEphemeral }
                  else msg
                match msg with
                | none => ⟨(Code L w 200 "").1, ev⟩
                | some m => ⟨(JSON L w 200 (.slackMsg m)).1, ev⟩

/-! ## Predicates used in the statements -/

/-- The request passes every stage that precedes the registry lookup, parses to `cmd` and
tokenizes to `args`: with a secret configured the verifier is built and `Ensure` accepts
what the parser read (with no secret neither is attempted); the form parses; the argument
text splits. -/
def Dispatches (L : Lib) (h : Handler) (req : Request) (cmd : SlashCommand)
    (args : List String) : Prop :=
  (h.slackSignature ≠ "" →
    ∃ v, L.NewSecretsVerifier req.Header h.slackSignature = .ok v ∧
      L.Ensure (v.Write (L.SlashCommandParse req).1) = none) ∧
  (L.SlashCommandParse req).2 = .ok cmd ∧
  L.Split cmd.Text = .ok args

/-- The request reaches the registered handler `prog`: it passes every earlier stage and
its command name, a leading slash trimmed, is a key of the registry. -/
def Reaches (L : Lib) (Commands : List (String × Command)) (h : Handler) (req : Request)
    (cmd : SlashCommand) (args : List String) (prog : Command) : Prop :=
  Dispatches L h req cmd args ∧
  Commands.lookup (TrimPrefix cmd.Command "/") = some prog

/-- One of the four stages before the lookup fails on the request: verifier construction,
form parsing, signature finalization on what the parser read, or tokenization. -/
def StageFails (L : Lib) (h : Handler) (req : Request) : Prop :=
  (h.slackSignature ≠ "" ∧ ∃ e, L.NewSecretsVerifier req.Header h.slackSignature = .error e) ∨
  (∃ e, (L.SlashCommandParse req).2 = .error e) ∨
  (h.slackSignature ≠ "" ∧ ∃ v e, L.NewSecretsVerifier req.Header h.slackSignature = .ok v ∧
    L.Ensure (v.Write (L.SlashCommandParse req).1) = some e) ∨
  (∃ cmd e, (L.SlashCommandParse req).2 = .ok cmd ∧ L.Split cmd.Text = .error e)

/-- An error response: an error status with the JSON object of `reqrep.Error` as body,
its `code` field being the status. -/
def IsErrorResponse (L : Lib) (w : ResponseWriter) : Prop :=
  ∃ code message, 400 ≤ code ∧ w.status = some code ∧ w.body = errorBody L code message

/-- The reply `ServeHTTP` goes on to send after a handler run without fatal error
(`main.go`, lines 97 to 102): the handler's reply, or, when there is none and the capture
buffer is not empty, the captured text as an ephemeral reply. -/
def replyToSend (flags : FlagSet) (msg : Option Msg) : Option Msg :=
  if 0 < len flags.output ∧ msg = none then
    some { Text := flags.output, ResponseType := ResponseTypeEphemeral }
  else msg

/-- The events of verifier construction: one when a secret is configured. -/
def verifierEvents (h : Handler) : List Event :=
  if h.slackSignature = "" then [] else [.newVerifier]

/-- The events of signature finalization: one when a secret is configured. -/
def ensureEvents (h : Handler) : List Event :=
  if h.slackSignature = "" then [] else [.ensure]

/-- Whether the event is a handler invocation. -/
def Event.isInvoke : Event → Bool
  | .invoke _ => true
  | _ => false

/-- How many times a command handler was invoked. -/
def World.invocations (o : World) : Nat :=
  (o.events.filter Event.isInvoke).length

/-- The name normalization the specification describes for the registry lookup: any
leading slash stripped, then lower-cased. -/
def specNormalize (c : String) : String :=
  ⟨(TrimPrefix c "/").data.map Char.toLower⟩

/-! ## A sample instance of the library routines

Simplified stand-ins, used to run the program on concrete requests: a form body is
`key=value` fields joined by `&` with no escapes, the signature is the plain text
`v0=secret:timestamp:body`, arguments are split at blanks. -/

/-- The pieces of `s` between occurrences of `c`. -/
def splitOnChar (c : Char) : List Char → List (List Char)
  | [] => [[]]
  | x :: xs =>
    if x = c then [] :: splitOnChar c xs
    else
      match splitOnChar c xs with
      | [] => [[x]]
      | y :: ys => (x :: y) :: ys

/-- The value of the form field `key` in `body`, empty when absent. -/
def Sample.formValue (key : String) (body : String) : String :=
  match (splitOnChar '&' body.data).filterMap (fun f =>
      if (key.data ++ ['=']).isPrefixOf f then some (f.drop (key.data.length + 1)) else none) with
  | [] => ""
  | v :: _ => ⟨v⟩

/-- Sample verifier construction: both Slack headers must be present. -/
def Sample.NewSecretsVerifier (hdr : Header) (secret : String) :
    Except GoError SecretsVerifier :=
  match hdr "X-Slack-Signature", hdr "X-Slack-Request-Timestamp" with
  | sig :: _, ts :: _ => .ok ⟨sig, ts, secret, ""⟩
  | _, _ => .error (.text "missing headers")

/-- Sample signature check. -/
def Sample.Ensure (v : SecretsVerifier) : Option GoError :=
  if v.signature = "v0=" ++ v.secret ++ ":" ++ v.stamp ++ ":" ++ v.written then none
  else some (.text "Expected signing signature does not match computed signature")

/-- Sample form parser: reads the whole body; a `%` is an invalid escape. -/
def Sample.SlashCommandParse (req : Request) : String × Except GoError SlashCommand :=
  if '%' ∈ req.Body.data then (req.Body, .error (.text "invalid URL escape"))
  else (req.Body, .ok ⟨Sample.formValue "command" req.Body, Sample.formValue "text" req.Body⟩)

/-- Sample tokenizer: words between blanks; an odd number of double quotes is an error. -/
def Sample.Split (s : String) : Except GoError (List String) :=
  if (s.data.filter (fun c => c = '"')).length % 2 = 1 then
    .error (.text "EOF found when expecting closing quote")
  else
    .ok (((splitOnChar ' ' s.data).filter (fun t => t ≠ [])).map (fun t => String.mk t))

/-- Sample string encoder: double quotes around the text, `"` and `\` escaped. -/
def Sample.jsonString (s : String) : String :=
  ⟨['"'] ++ s.data.flatMap (fun c => if c = '"' ∨ c = '\\' then ['\\', c] else [c]) ++ ['"']⟩

/-- Whether the text is a run of decimal digits, the number literals the sample encoder
accepts. -/
def Sample.isNumber (s : String) : Bool :=
  s.data ≠ [] ∧ s.data.all Char.isDigit

/-- Sample encoder of a message: its text and response type. An extra field `ts` stands
for the `json.Number` timestamp of an attachment, which `json.Marshal` refuses to encode
when it is not a number literal. -/
def Sample.MarshalMsg (m : Msg) : Except GoError String :=
  if m.Extra.any (fun kv => kv.1 = "ts" ∧ ¬ Sample.isNumber kv.2) then
    .error (.text "json: invalid number literal")
  else
    .ok ("\x7b\"text\":" ++ Sample.jsonString m.Text ++ ",\"response_type\":" ++
      Sample.jsonString m.ResponseType ++ "\x7d")

/-- Sample flag parser: `-h` asks for help, any other dash argument is undefined. -/
def Sample.FlagParse (f : FlagSet) (args : List String) : FlagSet × Option GoError :=
  if "-h" ∈ args then
    ({ f with output := f.output ++ "Usage of " ++ f.name ++ ":\n" }, some .errHelp)
  else
    match args.find? (fun a => HasPrefix a "-") with
    | some a =>
      ({ f with output := f.output ++ "flag provided but not defined: " ++ a ++ "\n" },
        some (.text ("flag provided but not defined: " ++ a)))
    | none => ({ f with args := args }, none)

/-- Sample `%# v`: Go syntax of a string slice. -/
def Sample.fmtSharpV (args : List String) : String :=
  "[]string\x7b" ++ ", ".intercalate (args.map Sample.jsonString) ++ "\x7d"

/-- Sample upper-casing: ASCII letters. -/
def Sample.ToUpper (s : String) : String :=
  ⟨s.data.map Char.toUpper⟩

/-- The sample library. -/
def sampleLib : Lib where
  NewSecretsVerifier := Sample.NewSecretsVerifier
  Ensure := Sample.Ensure
  SlashCommandParse := Sample.SlashCommandParse
  Split := Sample.Split
  MarshalMsg := Sample.MarshalMsg
  jsonString := Sample.jsonString
  quote := Sample.jsonString
  FlagParse := Sample.FlagParse
  fmtSharpV := Sample.fmtSharpV
  fmtV := GoError.Error
  fmtPlusV := GoError.Error
  ToUpper := Sample.ToUpper

/-- A handler with nothing to say: no reply, no error, no output. -/
def quietCommand : Command :=
  fun _ctx flags _args => (flags, none, none)

/-- A handler that prints a note and also returns a structured reply. -/
def replyCommand : Command :=
  fun _ctx flags _args =>
    (flags.Fprintf "note", some { Text := "done", ResponseType := "in_channel" }, none)

/-- A handler that fails. -/
def failCommand : Command :=
  fun _ctx flags _args => (flags.Fprintf "partly done", none, some (.text "boom"))

/-- A handler that signals help-requested without printing anything. -/
def helpCommand : Command :=
  fun _ctx flags _args => (flags, none, some (.wrap "usage: flag: help requested" .errHelp))

/-- A handler that returns, with a nil error, a reply holding an attachment timestamp that
is not a number. -/
def badReplyCommand : Command :=
  fun _ctx flags _args =>
    (flags, some { Text := "done", ResponseType := "in_channel", Extra := [("ts", "soon")] },
      none)

/-- A registry with the sample handlers next to `test`. -/
def sampleCommands : List (String × Command) :=
  Commands sampleLib ++ [("quiet", quietCommand), ("reply", replyCommand),
    ("fail", failCommand), ("help", helpCommand), ("badreply", badReplyCommand)]

/-- A slash-command request with the given form body and no signature headers. -/
def slashRequest (body : String) : Request :=
  { Method := "POST", Header := Header.empty, Body := body }

/-- A slash-command request carrying Slack signature headers. -/
def signedRequest (body signature stamp : String) : Request :=
  { Method := "POST",
    Header := (Header.empty.Set "X-Slack-Signature" signature).Set
      "X-Slack-Request-Timestamp" stamp,
    Body := body }


/-! ## Basic facts -/

theorem len_pos_iff (s : String) : 0 < len s ↔ s ≠ "" := by
  obtain ⟨cs⟩ := s
  cases cs with
  | nil => simp [len, String.utf8ByteSize, String.utf8ByteSize.go]
  | cons c cs =>
    have hc := Char.utf8Size_pos c
    have hne : (⟨c :: cs⟩ : String) ≠ "" := by
      intro h
      have := congrArg String.data h
      simp at this
    simp only [len, String.utf8ByteSize, String.utf8ByteSize.go, ne_eq, hne, not_false_eq_true,
      iff_true]
    omega

theorem errorBody_ne_empty (L : Lib) (code : Int) (message : String) :
    errorBody L code message ≠ "" := by
  intro h
  have := congrArg String.length h
  simp only [errorBody, String.length_append] at this
  have h1 : "\x7d".length = 1 := by decide
  have h2 : "".length = 0 := by decide
  omega

theorem JSON_ok (L : Lib) (w : ResponseWriter) (code : Int) (msg : Payload) (p : String)
    (hp : jsonMarshal L msg = .ok p) :
    (JSON L w code msg).1 =
      { header := (w.header.Set "Content-Type" "application/json; charset=utf-8").Set
          "Content-Length" (Itoa (len p)),
        calls := w.calls ++ [.writeHeader code, .write p] } := by
  simp [JSON, hp, ResponseWriter.HeaderSet, ResponseWriter.WriteHeader, ResponseWriter.Write]

theorem JSON_error (L : Lib) (w : ResponseWriter) (code : Int) (msg : Payload) (e : GoError)
    (hp : jsonMarshal L msg = .error e) :
    (JSON L w code msg).1 = { header := w.header, calls := w.calls ++ [.writeHeader 500] } := by
  simp [JSON, hp, ResponseWriter.WriteHeader]

theorem Error_eq (L : Lib) (w : ResponseWriter) (code : Int) (msg : String) :
    (Error L w code msg).1 =
      { header := (w.header.Set "Content-Type" "application/json; charset=utf-8").Set
          "Content-Length" (Itoa (len (errorBody L code msg))),
        calls := w.calls ++ [.writeHeader code, .write (errorBody L code msg)] } :=
  JSON_ok L w code _ _ rfl

theorem Error_status (L : Lib) (w : ResponseWriter) (code : Int) (msg : String)
    (hw : w.calls = []) : (Error L w code msg).1.status = some code := by
  simp [Error_eq, ResponseWriter.status, hw]

theorem Error_body (L : Lib) (w : ResponseWriter) (code : Int) (msg : String)
    (hw : w.calls = []) : (Error L w code msg).1.body = errorBody L code msg := by
  simp [Error_eq, ResponseWriter.body, ResponseWriter.writes, hw, String.join]

theorem Error_isErrorResponse (L : Lib) (w : ResponseWriter) (code : Int) (msg : String)
    (hw : w.calls = []) (hc : 400 ≤ code) : IsErrorResponse L (Error L w code msg).1 :=
  ⟨code, msg, hc, Error_status L w code msg hw, Error_body L w code msg hw⟩

/-! ## The paths through `ServeHTTP` -/

theorem serve_verifier_error (L : Lib) (Commands : List (String × Command)) (h : Handler)
    (w : ResponseWriter) (req : Request) (e : GoError)
    (hsec : h.slackSignature ≠ "")
    (he : L.NewSecretsVerifier req.Header h.slackSignature = .error e) :
    ServeHTTP L Commands h w req = ⟨(Error L w 400 e.Error).1, [.newVerifier]⟩ := by
  simp [ServeHTTP, hsec, he]

theorem serve_parse_error (L : Lib) (Commands : List (String × Command)) (h : Handler)
    (w : ResponseWriter) (req : Request) (e : GoError)
    (hb : h.slackSignature ≠ "" → ∃ v, L.NewSecretsVerifier req.Header h.slackSignature = .ok v)
    (he : (L.SlashCommandParse req).2 = .error e) :
    ServeHTTP L Commands h w req =
      ⟨(Error L w 400 "invalid slash request").1,
        verifierEvents h ++ [.parse, .log ("Error parsing request: " ++ L.fmtPlusV e)]⟩ := by
  cases hparse : L.SlashCommandParse req with
  | mk read parsed =>
    rw [hparse] at he
    simp only at he
    subst he
    by_cases hsec : h.slackSignature = ""
    · simp [ServeHTTP, hsec, hparse, verifierEvents]
    · obtain ⟨v, hv⟩ := hb hsec
      simp [ServeHTTP, hsec, hparse, hv, verifierEvents]

theorem serve_ensure_error (L : Lib) (Commands : List (String × Command)) (h : Handler)
    (w : ResponseWriter) (req : Request) (v : SecretsVerifier) (cmd : SlashCommand)
    (e : GoError)
    (hsec : h.slackSignature ≠ "")
    (hv : L.NewSecretsVerifier req.Header h.slackSignature = .ok v)
    (hp : (L.SlashCommandParse req).2 = .ok cmd)
    (he : L.Ensure (v.Write (L.SlashCommandParse req).1) = some e) :
    ServeHTTP L Commands h w req =
      ⟨(Error L w 401 "signature does not match request").1,
        [.newVerifier, .parse, .ensure, .log ("Error validating request: " ++ L.fmtPlusV e)]⟩ := by
  cases hparse : L.SlashCommandParse req with
  | mk read parsed =>
    rw [hparse] at hp he
    simp only at hp he
    subst hp
    simp [ServeHTTP, hsec, hparse, hv, he]

theorem serve_split_error (L : Lib) (Commands : List (String × Command)) (h : Handler)
    (w : ResponseWriter) (req : Request) (cmd : SlashCommand) (e : GoError)
    (hv : h.slackSignature ≠ "" →
      ∃ v, L.NewSecretsVerifier req.Header h.slackSignature = .ok v ∧
        L.Ensure (v.Write (L.SlashCommandParse req).1) = none)
    (hp : (L.SlashCommandParse req).2 = .ok cmd)
    (he : L.Split cmd.Text = .error e) :
    ServeHTTP L Commands h w req =
      ⟨(Errorf L w 400 ("unable to parse command arguments: " ++ L.fmtV e)).1,
        verifierEvents h ++ [.parse] ++ ensureEvents h ++ [.split]⟩ := by
  cases hparse : L.SlashCommandParse req with
  | mk read parsed =>
    rw [hparse] at hp hv
    simp only at hp hv
    subst hp
    by_cases hsec : h.slackSignature = ""
    · simp [ServeHTTP, hsec, hparse, he, verifierEvents, ensureEvents]
    · obtain ⟨v, hv1, hv2⟩ := hv hsec
      simp [ServeHTTP, hsec, hparse, he, hv1, hv2, verifierEvents, ensureEvents]

theorem serve_unrecognized (L : Lib) (Commands : List (String × Command)) (h : Handler)
    (w : ResponseWriter) (req : Request) (cmd : SlashCommand) (args : List String)
    (hd : Dispatches L h req cmd args)
    (hl : Commands.lookup (TrimPrefix cmd.Command "/") = none) :
    ServeHTTP L Commands h w req =
      ⟨(Errorf L w 400 ("unrecognized command " ++ L.quote (TrimPrefix cmd.Command "/"))).1,
        verifierEvents h ++ [.parse] ++ ensureEvents h ++ [.split]⟩ := by
  obtain ⟨hv, hp, hs⟩ := hd
  cases hparse : L.SlashCommandParse req with
  | mk read parsed =>
    rw [hparse] at hp hv
    simp only at hp hv
    subst hp
    by_cases hsec : h.slackSignature = ""
    · simp [ServeHTTP, hsec, hparse, hs, hl, verifierEvents, ensureEvents]
    · obtain ⟨v, hv1, hv2⟩ := hv hsec
      simp [ServeHTTP, hsec, hparse, hs, hl, hv1, hv2, verifierEvents, ensureEvents]

theorem serve_reached (L : Lib) (Commands : List (String × Command)) (h : Handler)
    (w : ResponseWriter) (req : Request) (cmd : SlashCommand) (args : List String)
    (prog : Command) (flags : FlagSet) (msg : Option Msg) (err : Option GoError)
    (hr : Reaches L Commands h req cmd args prog)
    (hrun : prog req.ctx (NewFlagSet (TrimPrefix cmd.Command "/") .ContinueOnError) args
      = (flags, msg, err)) :
    ServeHTTP L Commands h w req =
      ⟨if fatal err then
          (Errorf L w 500 ("error running command " ++ L.quote cmd.Command ++ ": " ++
            (err.map L.fmtPlusV).getD "")).1
        else
          match (if 0 < len flags.output ∧ msg = none then
              some { Text := flags.output, ResponseType := ResponseTypeEphemeral }
            else msg : Option Msg) with
          | none => (Code L w 200 "").1
          | some m => (JSON L w 200 (.slackMsg m)).1,
        verifierEvents h ++ [.parse] ++ ensureEvents h ++
          [.split, .invoke (TrimPrefix cmd.Command "/")]⟩ := by
  obtain ⟨⟨hv, hp, hs⟩, hl⟩ := hr
  cases hparse : L.SlashCommandParse req with
  | mk read parsed =>
    rw [hparse] at hp hv
    simp only at hp hv
    subst hp
    by_cases hsec : h.slackSignature = ""
    · by_cases hf : fatal err = true
      · simp [ServeHTTP, hsec, hparse, hs, hl, hrun, hf, verifierEvents, ensureEvents]
      · by_cases hb : 0 < len flags.output <;> cases msg <;>
          simp [ServeHTTP, hsec, hparse, hs, hl, hrun, hf, hb, verifierEvents, ensureEvents]
    · obtain ⟨v, hv1, hv2⟩ := hv hsec
      by_cases hf : fatal err = true
      · simp [ServeHTTP, hsec, hparse, hs, hl, hrun, hf, hv1, hv2, verifierEvents, ensureEvents]
      · by_cases hb : 0 < len flags.output <;> cases msg <;>
          simp [ServeHTTP, hsec, hparse, hs, hl, hrun, hf, hb, hv1, hv2, verifierEvents,
            ensureEvents]

theorem JSON_ok_status (L : Lib) (w : ResponseWriter) (code : Int) (msg : Payload) (p : String)
    (hp : jsonMarshal L msg = .ok p) (hw : w.calls = []) :
    (JSON L w code msg).1.status = some code ∧ (JSON L w code msg).1.body = p ∧
      (JSON L w code msg).1.calls = [.writeHeader code, .write p] := by
  simp [JSON_ok L w code msg p hp, ResponseWriter.status, ResponseWriter.body,
    ResponseWriter.writes, hw, String.join]

theorem JSON_not_isErrorResponse (L : Lib) (w : ResponseWriter) (msg : Payload)
    (hw : w.calls = []) : ¬ IsErrorResponse L (JSON L w 200 msg).1 := by
  rintro ⟨code, message, hc, hst, hbody⟩
  cases hm : jsonMarshal L msg with
  | error e =>
    rw [JSON_error L w 200 msg e hm] at hbody
    simp only [ResponseWriter.body, ResponseWriter.writes, hw, List.nil_append,
      List.filterMap_cons, List.filterMap_nil, String.join] at hbody
    exact errorBody_ne_empty L code message hbody.symm
  | ok p =>
    rw [(JSON_ok_status L w 200 msg p hm hw).1] at hst
    simp only [Option.some.injEq] at hst
    omega

theorem serve_nonfatal_not_isErrorResponse (L : Lib) (Commands : List (String × Command))
    (h : Handler) (w : ResponseWriter) (req : Request) (cmd : SlashCommand)
    (args : List String) (prog : Command) (flags : FlagSet) (msg : Option Msg)
    (err : Option GoError)
    (hr : Reaches L Commands h req cmd args prog)
    (hrun : prog req.ctx (NewFlagSet (TrimPrefix cmd.Command "/") .ContinueOnError) args
      = (flags, msg, err))
    (hf : fatal err = false) (hw : w.calls = []) :
    ¬ IsErrorResponse L (ServeHTTP L Commands h w req).w := by
  rw [serve_reached L Commands h w req cmd args prog flags msg err hr hrun]
  simp only [hf, Bool.false_eq_true, if_false]
  split
  · exact JSON_not_isErrorResponse L w _ hw
  · exact JSON_not_isErrorResponse L w _ hw

/-! ## Response synthesis -/

/-- C1. When a request reaches a registered handler and the handler returns a structured
reply `m` with no error (nil, or the help-requested condition that `ServeHTTP` treats like
nil), the response is what `reqrep.JSON` writes for status 200 and `m`, whatever the handler
wrote to the capture buffer `flags.output`: any other run on the same request in which the
handler returns the same reply, with any buffer content, gets the identical response. With
`p` the JSON encoding of `m`, the response is HTTP 200 with body exactly `p`, written
once. -/
theorem structured_reply_is_sole_body (L : Lib) (Commands : List (String × Command))
    (h : Handler) (w : ResponseWriter) (req : Request) (cmd : SlashCommand)
    (args : List String) (prog : Command) (flags : FlagSet) (m : Msg) (err : Option GoError)
    (hr : Reaches L Commands h req cmd args prog)
    (hrun : prog req.ctx (NewFlagSet (TrimPrefix cmd.Command "/") .ContinueOnError) args
      = (flags, some m, err))
    (herr : fatal err = false)
    (hw : w.calls = []) :
    (ServeHTTP L Commands h w req).w = (JSON L w 200 (.slackMsg m)).1 ∧
    (∀ (Commands2 : List (String × Command)) (prog2 : Command) (flags2 : FlagSet)
        (err2 : Option GoError),
      Reaches L Commands2 h req cmd args prog2 →
      prog2 req.ctx (NewFlagSet (TrimPrefix cmd.Command "/") .ContinueOnError) args
        = (flags2, some m, err2) →
      fatal err2 = false →
      (ServeHTTP L Commands2 h w req).w = (ServeHTTP L Commands h w req).w) ∧
    (∀ p, L.MarshalMsg m = .ok p →
      (ServeHTTP L Commands h w req).w.status = some 200 ∧
      (ServeHTTP L Commands h w req).w.body = p ∧
      (ServeHTTP L Commands h w req).w.calls = [.writeHeader 200, .write p]) := by
  have hserve : ∀ (Commands2 : List (String × Command)) (prog2 : Command) (flags2 : FlagSet)
      (err2 : Option GoError),
      Reaches L Commands2 h req cmd args prog2 →
      prog2 req.ctx (NewFlagSet (TrimPrefix cmd.Command "/") .ContinueOnError) args
        = (flags2, some m, err2) →
      fatal err2 = false →
      (ServeHTTP L Commands2 h w req).w = (JSON L w 200 (.slackMsg m)).1 := by
    intro Commands2 prog2 flags2 err2 hr2 hrun2 herr2
    rw [serve_reached L Commands2 h w req cmd args prog2 flags2 (some m) err2 hr2 hrun2]
    simp [herr2]
  have h1 := hserve Commands prog flags err hr hrun herr
  refine ⟨h1, ?_, ?_⟩
  · intro Commands2 prog2 flags2 err2 hr2 hrun2 herr2
    rw [h1, hserve Commands2 prog2 flags2 err2 hr2 hrun2 herr2]
  · intro p hp
    rw [h1]
    exact JSON_ok_status L w 200 (.slackMsg m) p hp hw

/-- C2. When a request reaches a registered handler and the handler returns no structured
reply, no fatal error, and has written a non-empty text `T` to its flag set output, the
response is what `reqrep.JSON` writes for status 200 and the reply with text `T` and
response type `ephemeral`: HTTP 200 with the JSON encoding `p` of that reply as body. -/
theorem captured_text_becomes_ephemeral_reply (L : Lib) (Commands : List (String × Command))
    (h : Handler) (w : ResponseWriter) (req : Request) (cmd : SlashCommand)
    (args : List String) (prog : Command) (flags : FlagSet) (err : Option GoError)
    (T p : String)
    (hr : Reaches L Commands h req cmd args prog)
    (hrun : prog req.ctx (NewFlagSet (TrimPrefix cmd.Command "/") .ContinueOnError) args
      = (flags, none, err))
    (herr : fatal err = false)
    (hT : flags.output = T) (hne : T ≠ "")
    (hw : w.calls = [])
    (hp : L.MarshalMsg { Text := T, ResponseType := "ephemeral" } = .ok p) :
    (ServeHTTP L Commands h w req).w =
      (JSON L w 200 (.slackMsg { Text := T, ResponseType := "ephemeral" })).1 ∧
    (ServeHTTP L Commands h w req).w.status = some 200 ∧
    (ServeHTTP L Commands h w req).w.body = p := by
  have hlen : 0 < len T := (len_pos_iff T).2 hne
  have hserve : (ServeHTTP L Commands h w req).w =
      (JSON L w 200 (.slackMsg { Text := T, ResponseType := "ephemeral" })).1 := by
    rw [serve_reached L Commands h w req cmd args prog flags none err hr hrun]
    simp [herr, hlen, hT, ResponseTypeEphemeral]
  rw [hserve]
  have hj := JSON_ok_status L w 200 (.slackMsg { Text := T, ResponseType := "ephemeral" }) p hp hw
  exact ⟨rfl, hj.1, hj.2.1⟩

theorem fatal_iff (err : Option GoError) :
    fatal err = true ↔ ∃ e, err = some e ∧ e.isErrHelp = false := by
  cases err with
  | none => simp [fatal]
  | some e => cases hh : e.isErrHelp <;> simp [fatal, hh]

theorem serve_nonfatal (L : Lib) (Commands : List (String × Command))
    (h : Handler) (w : ResponseWriter) (req : Request) (cmd : SlashCommand)
    (args : List String) (prog : Command) (flags : FlagSet) (msg : Option Msg)
    (err : Option GoError)
    (hr : Reaches L Commands h req cmd args prog)
    (hrun : prog req.ctx (NewFlagSet (TrimPrefix cmd.Command "/") .ContinueOnError) args
      = (flags, msg, err))
    (hf : fatal err = false) :
    (ServeHTTP L Commands h w req).w =
      match replyToSend flags msg with
      | none => (Code L w 200 "").1
      | some m => (JSON L w 200 (.slackMsg m)).1 := by
  rw [serve_reached L Commands h w req cmd args prog flags msg err hr hrun]
  simp [hf, replyToSend]

theorem JSON_error_status (L : Lib) (w : ResponseWriter) (code : Int) (msg : Payload)
    (e : GoError) (hp : jsonMarshal L msg = .error e) (hw : w.calls = []) :
    (JSON L w code msg).1.status = some 500 ∧ (JSON L w code msg).1.body = "" ∧
      (JSON L w code msg).1.calls = [.writeHeader 500] := by
  simp [JSON_error L w code msg e hp, ResponseWriter.status, ResponseWriter.body,
    ResponseWriter.writes, hw, String.join]

/-- C4, amended. When a request reaches a registered handler and the handler returned an
error that neither is nor wraps `flag.ErrHelp`, then, whatever reply `msg` and captured
text `flags.output` the handler produced, the status is 500 and the body is the error
object with code 500 and the message `error running command <name>: <cause>`, the name
being the parsed command name as `%q` prints it and the cause the handler's error as `%+v`
prints it; the error object is written in this case only. With a nil or help-requested
error the response is HTTP 200 when there is no reply to send or the reply encodes, and
the bare HTTP 500 with no body of `reqrep.JSON` when `json.Marshal` rejects the reply. So
the status is an error status exactly when the handler's error is fatal or the reply
cannot be encoded. When the error is help-requested, the response equals the response to
a handler that returned a nil error with the same reply and buffer. -/
theorem handler_error_is_internal_error (L : Lib) (Commands : List (String × Command))
    (h : Handler) (w : ResponseWriter) (req : Request) (cmd : SlashCommand)
    (args : List String) (prog : Command) (flags : FlagSet) (msg : Option Msg)
    (err : Option GoError)
    (hr : Reaches L Commands h req cmd args prog)
    (hrun : prog req.ctx (NewFlagSet (TrimPrefix cmd.Command "/") .ContinueOnError) args
      = (flags, msg, err))
    (hw : w.calls = []) :
    (∀ e, err = some e → e.isErrHelp = false →
      (ServeHTTP L Commands h w req).w.status = some 500 ∧
      (ServeHTTP L Commands h w req).w.body =
        errorBody L 500
          ("error running command " ++ L.quote cmd.Command ++ ": " ++ L.fmtPlusV e)) ∧
    (IsErrorResponse L (ServeHTTP L Commands h w req).w ↔
      ∃ e, err = some e ∧ e.isErrHelp = false) ∧
    (fatal err = false →
      (replyToSend flags msg = none →
        (ServeHTTP L Commands h w req).w.status = some 200) ∧
      (∀ m p, replyToSend flags msg = some m → L.MarshalMsg m = .ok p →
        (ServeHTTP L Commands h w req).w.status = some 200 ∧
        (ServeHTTP L Commands h w req).w.body = p) ∧
      (∀ m e2, replyToSend flags msg = some m → L.MarshalMsg m = .error e2 →
        (ServeHTTP L Commands h w req).w.status = some 500 ∧
        (ServeHTTP L Commands h w req).w.body = "" ∧
        (ServeHTTP L Commands h w req).w.calls = [.writeHeader 500])) ∧
    ((∃ code, (ServeHTTP L Commands h w req).w.status = some code ∧ 400 ≤ code) ↔
      ((∃ e, err = some e ∧ e.isErrHelp = false) ∨
        ∃ m e2, replyToSend flags msg = some m ∧ L.MarshalMsg m = .error e2)) ∧
    (∀ e, err = some e → e.isErrHelp = true →
      ∀ (Commands2 : List (String × Command)) (prog2 : Command),
        Reaches L Commands2 h req cmd args prog2 →
        prog2 req.ctx (NewFlagSet (TrimPrefix cmd.Command "/") .ContinueOnError) args
          = (flags, msg, none) →
        (ServeHTTP L Commands h w req).w = (ServeHTTP L Commands2 h w req).w) := by
  have hfat : ∀ e, err = some e → e.isErrHelp = false →
      (ServeHTTP L Commands h w req).w =
        (Error L w 500
          ("error running command " ++ L.quote cmd.Command ++ ": " ++ L.fmtPlusV e)).1 := by
    intro e he hh
    rw [serve_reached L Commands h w req cmd args prog flags msg err hr hrun]
    simp [he, fatal, hh, Errorf]
  have hnon : fatal err = false →
      (replyToSend flags msg = none →
        (ServeHTTP L Commands h w req).w.status = some 200) ∧
      (∀ m p, replyToSend flags msg = some m → L.MarshalMsg m = .ok p →
        (ServeHTTP L Commands h w req).w.status = some 200 ∧
        (ServeHTTP L Commands h w req).w.body = p) ∧
      (∀ m e2, replyToSend flags msg = some m → L.MarshalMsg m = .error e2 →
        (ServeHTTP L Commands h w req).w.status = some 500 ∧
        (ServeHTTP L Commands h w req).w.body = "" ∧
        (ServeHTTP L Commands h w req).w.calls = [.writeHeader 500]) := by
    intro hf
    have hs := serve_nonfatal L Commands h w req cmd args prog flags msg err hr hrun hf
    refine ⟨?_, ?_, ?_⟩
    · intro hnone
      rw [hs, hnone]
      exact (JSON_ok_status L w 200 (.codeResp 200 "") (codeBody L 200 "") rfl hw).1
    · intro m p hm hp
      rw [hs, hm]
      have hj := JSON_ok_status L w 200 (.slackMsg m) p hp hw
      exact ⟨hj.1, hj.2.1⟩
    · intro m e2 hm hp
      rw [hs, hm]
      exact JSON_error_status L w 200 (.slackMsg m) e2 hp hw
  refine ⟨?_, ⟨?_, ?_⟩, hnon, ⟨?_, ?_⟩, ?_⟩
  · intro e he hh
    rw [hfat e he hh]
    exact ⟨Error_status L w 500 _ hw, Error_body L w 500 _ hw⟩
  · intro hres
    cases hf : fatal err with
    | true => exact (fatal_iff err).1 hf
    | false =>
      exact absurd hres
        (serve_nonfatal_not_isErrorResponse L Commands h w req cmd args prog flags msg err
          hr hrun hf hw)
  · rintro ⟨e, he, hh⟩
    rw [hfat e he hh]
    exact Error_isErrorResponse L w 500 _ hw (by norm_num)
  · rintro ⟨code, hst, hcode⟩
    cases hf : fatal err with
    | true => exact Or.inl ((fatal_iff err).1 hf)
    | false =>
      obtain ⟨h1, h2, _⟩ := hnon hf
      cases hreply : replyToSend flags msg with
      | none =>
        rw [h1 hreply] at hst
        simp only [Option.some.injEq] at hst
        omega
      | some m =>
        cases hm : L.MarshalMsg m with
        | error e2 => exact Or.inr ⟨m, e2, rfl, hm⟩
        | ok p =>
          rw [(h2 m p hreply hm).1] at hst
          simp only [Option.some.injEq] at hst
          omega
  · rintro (⟨e, he, hh⟩ | ⟨m, e2, hreply, hm⟩)
    · refine ⟨500, ?_, by norm_num⟩
      rw [hfat e he hh]
      exact Error_status L w 500 _ hw
    · cases hf : fatal err with
      | true =>
        obtain ⟨e, he, hh⟩ := (fatal_iff err).1 hf
        refine ⟨500, ?_, by norm_num⟩
        rw [hfat e he hh]
        exact Error_status L w 500 _ hw
      | false => exact ⟨500, ((hnon hf).2.2 m e2 hreply hm).1, by norm_num⟩
  · intro e he hh Commands2 prog2 hr2 hrun2
    rw [serve_reached L Commands h w req cmd args prog flags msg err hr hrun,
      serve_reached L Commands2 h w req cmd args prog2 flags msg none hr2 hrun2]
    simp [he, fatal, hh]

/-- C4, the claim as stated fails: the handler `badreply` returns a nil error together with
a reply that `json.Marshal` rejects; `reqrep.JSON` then answers with a bare HTTP 500, an
error response although the handler returned no error at all. -/
theorem unencodable_reply_is_500_without_handler_error :
    badReplyCommand (slashRequest "command=/badreply&text=").ctx
      (NewFlagSet "badreply" .ContinueOnError) [] =
      (⟨"badreply", .ContinueOnError, "", []⟩,
        some ⟨"done", "in_channel", [("ts", "soon")]⟩, none) ∧
    sampleLib.MarshalMsg ⟨"done", "in_channel", [("ts", "soon")]⟩ =
      .error (.text "json: invalid number literal") ∧
    (ServeHTTP sampleLib sampleCommands ⟨""⟩ .fresh
      (slashRequest "command=/badreply&text=")).invocations = 1 ∧
    (ServeHTTP sampleLib sampleCommands ⟨""⟩ .fresh
      (slashRequest "command=/badreply&text=")).w.status = some 500 ∧
    (ServeHTTP sampleLib sampleCommands ⟨""⟩ .fresh
      (slashRequest "command=/badreply&text=")).w.calls = [.writeHeader 500] ∧
    (ServeHTTP sampleLib sampleCommands ⟨""⟩ .fresh
      (slashRequest "command=/badreply&text=")).w.body = "" := by
  refine ⟨rfl, rfl, ?_, ?_, ?_, ?_⟩ <;> decide

/-- Witness for C1: the handler `reply` prints a note and returns a reply; the response is
the reply alone. -/
theorem structured_reply_is_sole_body_witness :
    Reaches sampleLib sampleCommands ⟨""⟩ (slashRequest "command=/reply&text=x")
      ⟨"/reply", "x"⟩ ["x"] replyCommand ∧
    replyCommand (slashRequest "command=/reply&text=x").ctx
      (NewFlagSet "reply" .ContinueOnError) ["x"] =
      (⟨"reply", .ContinueOnError, "note", []⟩, some ⟨"done", "in_channel", []⟩, none) ∧
    (ServeHTTP sampleLib sampleCommands ⟨""⟩ .fresh
      (slashRequest "command=/reply&text=x")).w.status = some 200 ∧
    (ServeHTTP sampleLib sampleCommands ⟨""⟩ .fresh
      (slashRequest "command=/reply&text=x")).w.body =
      "\x7b\"text\":\"done\",\"response_type\":\"in_channel\"\x7d" :=
  have hr : Reaches sampleLib sampleCommands ⟨""⟩ (slashRequest "command=/reply&text=x")
      ⟨"/reply", "x"⟩ ["x"] replyCommand :=
    ⟨⟨fun hne => absurd rfl hne, rfl, rfl⟩, rfl⟩
  have t := structured_reply_is_sole_body sampleLib sampleCommands ⟨""⟩ .fresh
    (slashRequest "command=/reply&text=x") ⟨"/reply", "x"⟩ ["x"] replyCommand
    ⟨"reply", .ContinueOnError, "note", []⟩ ⟨"done", "in_channel", []⟩ none hr rfl rfl rfl
  have tp := t.2.2 "\x7b\"text\":\"done\",\"response_type\":\"in_channel\"\x7d" rfl
  ⟨hr, rfl, tp.1, tp.2.1⟩

/-- Witness for C2: `test` with no arguments prints its argument list and returns nothing
else; the response is that text as an ephemeral reply. -/
theorem captured_text_becomes_ephemeral_reply_witness :
    Reaches sampleLib sampleCommands ⟨""⟩ (slashRequest "command=/test&text=")
      ⟨"/test", ""⟩ [] (TestCommand sampleLib) ∧
    TestCommand sampleLib (slashRequest "command=/test&text=").ctx
      (NewFlagSet "test" .ContinueOnError) [] =
      (⟨"test", .ContinueOnError, "Args: []string\x7b\x7d", []⟩, none, none) ∧
    (ServeHTTP sampleLib sampleCommands ⟨""⟩ .fresh
      (slashRequest "command=/test&text=")).w.status = some 200 ∧
    (ServeHTTP sampleLib sampleCommands ⟨""⟩ .fresh
      (slashRequest "command=/test&text=")).w.body =
      "\x7b\"text\":\"Args: []string\x7b\x7d\",\"response_type\":\"ephemeral\"\x7d" :=
  have hr : Reaches sampleLib sampleCommands ⟨""⟩ (slashRequest "command=/test&text=")
      ⟨"/test", ""⟩ [] (TestCommand sampleLib) :=
    ⟨⟨fun hne => absurd rfl hne, rfl, rfl⟩, rfl⟩
  have t := captured_text_becomes_ephemeral_reply sampleLib sampleCommands ⟨""⟩ .fresh
    (slashRequest "command=/test&text=") ⟨"/test", ""⟩ [] (TestCommand sampleLib)
    ⟨"test", .ContinueOnError, "Args: []string\x7b\x7d", []⟩ none "Args: []string\x7b\x7d"
    "\x7b\"text\":\"Args: []string\x7b\x7d\",\"response_type\":\"ephemeral\"\x7d"
    hr rfl rfl rfl (by decide) rfl rfl
  ⟨hr, rfl, t.2.1, t.2.2⟩

/-- Witness for the amended C4: the handler `fail` prints, then fails with `boom`; the response is the
500 error object naming the command. -/
theorem handler_error_is_internal_error_witness :
    Reaches sampleLib sampleCommands ⟨""⟩ (slashRequest "command=/fail&text=x")
      ⟨"/fail", "x"⟩ ["x"] failCommand ∧
    failCommand (slashRequest "command=/fail&text=x").ctx
      (NewFlagSet "fail" .ContinueOnError) ["x"] =
      (⟨"fail", .ContinueOnError, "partly done", []⟩, none, some (.text "boom")) ∧
    (ServeHTTP sampleLib sampleCommands ⟨""⟩ .fresh
      (slashRequest "command=/fail&text=x")).w.status = some 500 ∧
    (ServeHTTP sampleLib sampleCommands ⟨""⟩ .fresh
      (slashRequest "command=/fail&text=x")).w.body =
      errorBody sampleLib 500 ("error running command " ++ sampleLib.quote "/fail" ++ ": " ++
        "boom") :=
  have hr : Reaches sampleLib sampleCommands ⟨""⟩ (slashRequest "command=/fail&text=x")
      ⟨"/fail", "x"⟩ ["x"] failCommand :=
    ⟨⟨fun hne => absurd rfl hne, rfl, rfl⟩, rfl⟩
  have t := (handler_error_is_internal_error sampleLib sampleCommands ⟨""⟩ .fresh
    (slashRequest "command=/fail&text=x") ⟨"/fail", "x"⟩ ["x"] failCommand
    ⟨"fail", .ContinueOnError, "partly done", []⟩ none (some (.text "boom"))
    hr rfl rfl).1 (.text "boom") rfl rfl
  ⟨hr, rfl, t.1, t.2⟩

/-- C3, on the code: a handler that returns no reply and leaves the capture buffer empty
(`quiet` returns a nil error, `help` returns an error wrapping `flag.ErrHelp`) is answered
with HTTP 200 and the twelve-byte JSON object of `reqrep.Code`, not with an empty body. -/
theorem silent_handler_gets_code_object :
    quietCommand (slashRequest "command=/quiet&text=").ctx
      (NewFlagSet "quiet" .ContinueOnError) [] =
      (⟨"quiet", .ContinueOnError, "", []⟩, none, none) ∧
    (ServeHTTP sampleLib sampleCommands ⟨""⟩ .fresh
      (slashRequest "command=/quiet&text=")).w.status = some 200 ∧
    (ServeHTTP sampleLib sampleCommands ⟨""⟩ .fresh
      (slashRequest "command=/quiet&text=")).w.calls =
      [.writeHeader 200, .write "\x7b\"code\":200\x7d"] ∧
    (ServeHTTP sampleLib sampleCommands ⟨""⟩ .fresh
      (slashRequest "command=/quiet&text=")).w.body = "\x7b\"code\":200\x7d" ∧
    (ServeHTTP sampleLib sampleCommands ⟨""⟩ .fresh
      (slashRequest "command=/quiet&text=")).w.body ≠ "" ∧
    (ServeHTTP sampleLib sampleCommands ⟨""⟩ .fresh
      (slashRequest "command=/quiet&text=")).w.header "Content-Length" = ["12"] ∧
    (ServeHTTP sampleLib sampleCommands ⟨""⟩ .fresh
      (slashRequest "command=/help&text=")).w.status = some 200 ∧
    (ServeHTTP sampleLib sampleCommands ⟨""⟩ .fresh
      (slashRequest "command=/help&text=")).w.body = "\x7b\"code\":200\x7d" := by
  decide

/-- For every library: a handler that returns no reply and no fatal error and leaves the
buffer empty is answered through `reqrep.Code(w, 200, "")`, whose body is the object with
the single field `code`. -/
theorem serve_silent (L : Lib) (Commands : List (String × Command)) (h : Handler)
    (w : ResponseWriter) (req : Request) (cmd : SlashCommand) (args : List String)
    (prog : Command) (flags : FlagSet) (err : Option GoError)
    (hr : Reaches L Commands h req cmd args prog)
    (hrun : prog req.ctx (NewFlagSet (TrimPrefix cmd.Command "/") .ContinueOnError) args
      = (flags, none, err))
    (herr : fatal err = false) (hout : flags.output = "") (hw : w.calls = []) :
    (ServeHTTP L Commands h w req).w.status = some 200 ∧
    (ServeHTTP L Commands h w req).w.body = "\x7b\"code\":200\x7d" := by
  have hlen : ¬ 0 < len flags.output := by
    rw [len_pos_iff, hout]
    simp
  have hserve : (ServeHTTP L Commands h w req).w = (Code L w 200 "").1 := by
    rw [serve_reached L Commands h w req cmd args prog flags none err hr hrun]
    simp [herr, hlen]
  rw [hserve]
  have hj := JSON_ok_status L w 200 (.codeResp 200 "") (codeBody L 200 "") rfl hw
  exact ⟨hj.1, hj.2.1⟩

theorem invocations_of_reached (h : Handler) (name : String) :
    (List.filter Event.isInvoke
      (verifierEvents h ++ [.parse] ++ ensureEvents h ++ [.split, .invoke name])).length
      = 1 := by
  by_cases hsec : h.slackSignature = "" <;>
    simp [verifierEvents, ensureEvents, hsec, Event.isInvoke, List.filter]

theorem invocations_of_unrecognized (h : Handler) :
    (List.filter Event.isInvoke
      (verifierEvents h ++ [.parse] ++ ensureEvents h ++ [.split])).length = 0 := by
  by_cases hsec : h.slackSignature = "" <;>
    simp [verifierEvents, ensureEvents, hsec, Event.isInvoke, List.filter]

/-! ## Unrecognized commands and the registry lookup -/

/-- C5, the claim as stated fails: with a secret configured, a request for `/nope`, which
is not a key of `Commands` (with or without its slash), whose signature does not match is
answered 401, not 400. -/
theorem unregistered_command_with_bad_signature_is_401 :
    (sampleLib.SlashCommandParse
      (signedRequest "command=/nope&text=" "v0=00" "1700000000")).2 = .ok ⟨"/nope", ""⟩ ∧
    ((Commands sampleLib).lookup "/nope").isNone = true ∧
    ((Commands sampleLib).lookup "nope").isNone = true ∧
    (ServeHTTP sampleLib (Commands sampleLib) ⟨"s3cret"⟩ .fresh
      (signedRequest "command=/nope&text=" "v0=00" "1700000000")).w.status = some 401 ∧
    (ServeHTTP sampleLib (Commands sampleLib) ⟨"s3cret"⟩ .fresh
      (signedRequest "command=/nope&text=" "v0=00" "1700000000")).w.status ≠ some 400 ∧
    (ServeHTTP sampleLib (Commands sampleLib) ⟨"s3cret"⟩ .fresh
      (signedRequest "command=/nope&text=" "v0=00" "1700000000")).w.body =
      "\x7b\"code\":401,\"error\":\"signature does not match request\"\x7d" := by
  refine ⟨rfl, rfl, rfl, ?_, ?_, ?_⟩ <;> decide

/-- C5, amended. For every request that passes the stages before the lookup (verifier
construction and signature check, both skipped when no secret is configured; form parsing;
argument tokenization), if the parsed command name with one leading slash trimmed is not
a key of the registry, the response is HTTP 400 with the error object whose message is
`unrecognized command ` followed by the trimmed name as `%q` prints it, and no handler is
invoked. -/
theorem unrecognized_command_is_bad_request (L : Lib) (Commands : List (String × Command))
    (h : Handler) (w : ResponseWriter) (req : Request) (cmd : SlashCommand)
    (args : List String)
    (hd : Dispatches L h req cmd args)
    (hl : Commands.lookup (TrimPrefix cmd.Command "/") = none)
    (hw : w.calls = []) :
    (ServeHTTP L Commands h w req).w.status = some 400 ∧
    (ServeHTTP L Commands h w req).w.body =
      errorBody L 400 ("unrecognized command " ++ L.quote (TrimPrefix cmd.Command "/")) ∧
    (ServeHTTP L Commands h w req).invocations = 0 := by
  rw [serve_unrecognized L Commands h w req cmd args hd hl]
  exact ⟨Error_status L w 400 _ hw, Error_body L w 400 _ hw, invocations_of_unrecognized h⟩

/-- Witness for the amended C5: `/nope` with no secret configured. -/
theorem unrecognized_command_is_bad_request_witness :
    Dispatches sampleLib ⟨""⟩ (slashRequest "command=/nope&text=a b") ⟨"/nope", "a b"⟩
      ["a", "b"] ∧
    ((Commands sampleLib).lookup (TrimPrefix "/nope" "/")).isNone = true ∧
    (ServeHTTP sampleLib (Commands sampleLib) ⟨""⟩ .fresh
      (slashRequest "command=/nope&text=a b")).w.status = some 400 ∧
    (ServeHTTP sampleLib (Commands sampleLib) ⟨""⟩ .fresh
      (slashRequest "command=/nope&text=a b")).w.body =
      errorBody sampleLib 400 ("unrecognized command " ++ sampleLib.quote "nope") :=
  have hd : Dispatches sampleLib ⟨""⟩ (slashRequest "command=/nope&text=a b")
      ⟨"/nope", "a b"⟩ ["a", "b"] :=
    ⟨fun hne => absurd rfl hne, rfl, rfl⟩
  have t := unrecognized_command_is_bad_request sampleLib (Commands sampleLib) ⟨""⟩ .fresh
    (slashRequest "command=/nope&text=a b") ⟨"/nope", "a b"⟩ ["a", "b"] hd rfl rfl
  ⟨hd, rfl, t.1, t.2.1⟩

/-- C9, the claim as stated fails: the name `/TEST`, stripped of its slash and lower-cased,
is the key `test` of `Commands`, yet the lookup uses `TEST`, no handler is resolved and the
request fails as an unrecognized command. -/
theorem upper_case_name_is_not_resolved :
    specNormalize "/TEST" = "test" ∧
    ((Commands sampleLib).lookup (specNormalize "/TEST")).isSome = true ∧
    (sampleLib.SlashCommandParse (slashRequest "command=/TEST&text=")).2
      = .ok ⟨"/TEST", ""⟩ ∧
    (ServeHTTP sampleLib (Commands sampleLib) ⟨""⟩ .fresh
      (slashRequest "command=/TEST&text=")).invocations = 0 ∧
    (ServeHTTP sampleLib (Commands sampleLib) ⟨""⟩ .fresh
      (slashRequest "command=/TEST&text=")).w.status = some 400 ∧
    (ServeHTTP sampleLib (Commands sampleLib) ⟨""⟩ .fresh
      (slashRequest "command=/TEST&text=")).w.body =
      "\x7b\"code\":400,\"error\":\"unrecognized command \\\"TEST\\\"\"\x7d" := by
  refine ⟨by decide, rfl, rfl, ?_, ?_, ?_⟩ <;> decide

/-- C9, amended. The lookup trims one leading slash from the parsed command name and
changes nothing else, the case of letters included: for a request that passes the earlier
stages, a handler is invoked (once) exactly when the trimmed name is a key of the registry,
and otherwise the request fails as an unrecognized command with HTTP 400. So `test` and
`/test` resolve to the key `test`, while `/TEST` is looked up as `TEST` and `//test` as
`/test`. -/
theorem lookup_trims_one_slash_and_keeps_case (L : Lib) (Commands : List (String × Command))
    (h : Handler) (w : ResponseWriter) (req : Request) (cmd : SlashCommand)
    (args : List String)
    (hd : Dispatches L h req cmd args)
    (hw : w.calls = []) :
    ((ServeHTTP L Commands h w req).invocations = 1 ↔
      (Commands.lookup (TrimPrefix cmd.Command "/")).isSome = true) ∧
    ((Commands.lookup (TrimPrefix cmd.Command "/")).isSome = true →
      (ServeHTTP L Commands h w req).events =
        verifierEvents h ++ [.parse] ++ ensureEvents h ++
          [.split, .invoke (TrimPrefix cmd.Command "/")]) ∧
    ((Commands.lookup (TrimPrefix cmd.Command "/")).isSome = false →
      (ServeHTTP L Commands h w req).invocations = 0 ∧
      (ServeHTTP L Commands h w req).w.status = some 400 ∧
      (ServeHTTP L Commands h w req).w.body =
        errorBody L 400 ("unrecognized command " ++ L.quote (TrimPrefix cmd.Command "/"))) ∧
    TrimPrefix "test" "/" = "test" ∧ TrimPrefix "/test" "/" = "test" ∧
    TrimPrefix "/TEST" "/" = "TEST" ∧ TrimPrefix "//test" "/" = "/test" := by
  cases hl : Commands.lookup (TrimPrefix cmd.Command "/") with
  | none =>
    rw [serve_unrecognized L Commands h w req cmd args hd hl]
    simp only [World.invocations, invocations_of_unrecognized, Option.isSome_none,
      Bool.false_eq_true, zero_ne_one, false_implies, true_implies, true_and]
    exact ⟨⟨Error_status L w 400 _ hw, Error_body L w 400 _ hw⟩, by decide, by decide,
      by decide, by decide⟩
  | some prog =>
    rcases hrun : prog req.ctx (NewFlagSet (TrimPrefix cmd.Command "/") .ContinueOnError) args
      with ⟨flags, msg, err⟩
    rw [serve_reached L Commands h w req cmd args prog flags msg err ⟨hd, hl⟩ hrun]
    simp only [World.invocations, invocations_of_reached, Option.isSome_some,
      Bool.true_eq_false, false_implies, true_implies, true_and]
    exact ⟨by decide, by decide, by decide, by decide⟩

/-- Witness for the amended C9: `/test` resolves and the handler runs once. -/
theorem lookup_trims_one_slash_and_keeps_case_witness :
    Dispatches sampleLib ⟨""⟩ (slashRequest "command=/test&text=") ⟨"/test", ""⟩ [] ∧
    ((Commands sampleLib).lookup (TrimPrefix "/test" "/")).isSome = true ∧
    (ServeHTTP sampleLib (Commands sampleLib) ⟨""⟩ .fresh
      (slashRequest "command=/test&text=")).invocations = 1 :=
  have hd : Dispatches sampleLib ⟨""⟩ (slashRequest "command=/test&text=") ⟨"/test", ""⟩ [] :=
    ⟨fun hne => absurd rfl hne, rfl, rfl⟩
  have t := lookup_trims_one_slash_and_keeps_case sampleLib (Commands sampleLib) ⟨""⟩ .fresh
    (slashRequest "command=/test&text=") ⟨"/test", ""⟩ [] hd rfl
  ⟨hd, rfl, t.1.2 rfl⟩

/-! ## `TrapError` -/

/-- C6, on the code: a recovered value that is not an error (the value of `panic("boom")`,
say) matches no case of the type switch in `TrapError`, so nothing is written: the response
writer is left as it was, with no status and no body. -/
theorem TrapError_writes_nothing_for_non_error_value (L : Lib) (w : ResponseWriter)
    (descr : String) :
    TrapError L w (.other descr) = w ∧
    (TrapError L .fresh (.other descr)).status = none ∧
    (TrapError L .fresh (.other descr)).calls = [] := by
  exact ⟨rfl, rfl, rfl⟩

/-- What `TrapError` does on the kinds its type switch names: nothing for nil, one error
response with the carried code and message for a `*HTTPError` (such as `Bail` raises), and
one 500 response for any other error. -/
theorem TrapError_on_named_cases (L : Lib) (w : ResponseWriter) :
    TrapError L w .nil = w ∧
    (∀ code msg, (TrapError L w (Bail code msg)).calls =
      w.calls ++ [.writeHeader code, .write (errorBody L code msg)]) ∧
    (∀ e : GoError, (TrapError L w (.error e)).calls =
      w.calls ++ [.writeHeader 500, .write (errorBody L 500 ("unexpected error: " ++ e.Error))])
    := by
  refine ⟨rfl, ?_, ?_⟩
  · intro code msg
    simp [TrapError, Bail, NewHTTPError, Error_eq]
  · intro e
    simp [TrapError, Error_eq]

/-! ## The stages before dispatch -/

/-- Every run of `ServeHTTP` takes one of six paths, told apart by the first stage that
fails. -/
theorem serve_cases (L : Lib) (Commands : List (String × Command)) (h : Handler)
    (w : ResponseWriter) (req : Request) :
    (∃ e, h.slackSignature ≠ "" ∧
      L.NewSecretsVerifier req.Header h.slackSignature = .error e ∧
      ServeHTTP L Commands h w req = ⟨(Error L w 400 e.Error).1, [.newVerifier]⟩) ∨
    (∃ e, (L.SlashCommandParse req).2 = .error e ∧
      ServeHTTP L Commands h w req =
        ⟨(Error L w 400 "invalid slash request").1,
          verifierEvents h ++ [.parse, .log ("Error parsing request: " ++ L.fmtPlusV e)]⟩) ∨
    (∃ v cmd e, h.slackSignature ≠ "" ∧
      L.NewSecretsVerifier req.Header h.slackSignature = .ok v ∧
      (L.SlashCommandParse req).2 = .ok cmd ∧
      L.Ensure (v.Write (L.SlashCommandParse req).1) = some e ∧
      ServeHTTP L Commands h w req =
        ⟨(Error L w 401 "signature does not match request").1,
          [.newVerifier, .parse, .ensure,
            .log ("Error validating request: " ++ L.fmtPlusV e)]⟩) ∨
    (∃ cmd e, (L.SlashCommandParse req).2 = .ok cmd ∧ L.Split cmd.Text = .error e ∧
      ServeHTTP L Commands h w req =
        ⟨(Errorf L w 400 ("unable to parse command arguments: " ++ L.fmtV e)).1,
          verifierEvents h ++ [.parse] ++ ensureEvents h ++ [.split]⟩) ∨
    (∃ cmd args, Dispatches L h req cmd args ∧
      Commands.lookup (TrimPrefix cmd.Command "/") = none ∧
      ServeHTTP L Commands h w req =
        ⟨(Errorf L w 400
            ("unrecognized command " ++ L.quote (TrimPrefix cmd.Command "/"))).1,
          verifierEvents h ++ [.parse] ++ ensureEvents h ++ [.split]⟩) ∨
    (∃ cmd args prog flags msg err, Reaches L Commands h req cmd args prog ∧
      prog req.ctx (NewFlagSet (TrimPrefix cmd.Command "/") .ContinueOnError) args
        = (flags, msg, err) ∧
      ServeHTTP L Commands h w req =
        ⟨if fatal err then
            (Errorf L w 500 ("error running command " ++ L.quote cmd.Command ++ ": " ++
              (err.map L.fmtPlusV).getD "")).1
          else
            match (if 0 < len flags.output ∧ msg = none then
                some { Text := flags.output, ResponseType := ResponseTypeEphemeral }
              else msg : Option Msg) with
            | none => (Code L w 200 "").1
            | some m => (JSON L w 200 (.slackMsg m)).1,
          verifierEvents h ++ [.parse] ++ ensureEvents h ++
            [.split, .invoke (TrimPrefix cmd.Command "/")]⟩) := by
  -- the verifier stage
  have hstage1 : (∃ e, h.slackSignature ≠ "" ∧
        L.NewSecretsVerifier req.Header h.slackSignature = .error e) ∨
      (h.slackSignature ≠ "" → ∃ v, L.NewSecretsVerifier req.Header h.slackSignature = .ok v) := by
    by_cases hsec : h.slackSignature = ""
    · exact Or.inr (fun hne => absurd hsec hne)
    · cases hv : L.NewSecretsVerifier req.Header h.slackSignature with
      | error e => exact Or.inl ⟨e, hsec, rfl⟩
      | ok v => exact Or.inr (fun _ => ⟨v, rfl⟩)
  rcases hstage1 with ⟨e, hsec, hv⟩ | hbuilt
  · exact Or.inl ⟨e, hsec, hv, serve_verifier_error L Commands h w req e hsec hv⟩
  -- the parsing stage
  cases hp : (L.SlashCommandParse req).2 with
  | error e =>
    exact Or.inr (Or.inl ⟨e, rfl, serve_parse_error L Commands h w req e hbuilt hp⟩)
  | ok cmd =>
    -- the signature stage
    have hstage3 : (∃ v e, h.slackSignature ≠ "" ∧
          L.NewSecretsVerifier req.Header h.slackSignature = .ok v ∧
          L.Ensure (v.Write (L.SlashCommandParse req).1) = some e) ∨
        (h.slackSignature ≠ "" →
          ∃ v, L.NewSecretsVerifier req.Header h.slackSignature = .ok v ∧
            L.Ensure (v.Write (L.SlashCommandParse req).1) = none) := by
      by_cases hsec : h.slackSignature = ""
      · exact Or.inr (fun hne => absurd hsec hne)
      · obtain ⟨v, hv⟩ := hbuilt hsec
        cases he : L.Ensure (v.Write (L.SlashCommandParse req).1) with
        | some e => exact Or.inl ⟨v, e, hsec, hv, he⟩
        | none => exact Or.inr (fun _ => ⟨v, hv, he⟩)
    rcases hstage3 with ⟨v, e, hsec, hv, he⟩ | hverified
    · exact Or.inr (Or.inr (Or.inl ⟨v, cmd, e, hsec, hv, rfl, he,
        serve_ensure_error L Commands h w req v cmd e hsec hv hp he⟩))
    -- the tokenizer stage
    cases hs : L.Split cmd.Text with
    | error e =>
      exact Or.inr (Or.inr (Or.inr (Or.inl ⟨cmd, e, rfl, hs,
        serve_split_error L Commands h w req cmd e hverified hp hs⟩)))
    | ok args =>
      have hd : Dispatches L h req cmd args := ⟨hverified, hp, hs⟩
      -- the lookup
      cases hl : Commands.lookup (TrimPrefix cmd.Command "/") with
      | none =>
        exact Or.inr (Or.inr (Or.inr (Or.inr (Or.inl ⟨cmd, args, hd, hl,
          serve_unrecognized L Commands h w req cmd args hd hl⟩))))
      | some prog =>
        rcases hrun : prog req.ctx (NewFlagSet (TrimPrefix cmd.Command "/") .ContinueOnError)
          args with ⟨flags, msg, err⟩
        exact Or.inr (Or.inr (Or.inr (Or.inr (Or.inr ⟨cmd, args, prog, flags, msg, err,
          ⟨hd, hl⟩, hrun,
          serve_reached L Commands h w req cmd args prog flags msg err ⟨hd, hl⟩ hrun⟩))))

theorem stageFails_not_dispatches (L : Lib) (h : Handler) (req : Request)
    (cmd : SlashCommand) (args : List String)
    (hf : StageFails L h req) (hd : Dispatches L h req cmd args) : False := by
  obtain ⟨hv, hp, hs⟩ := hd
  rcases hf with ⟨hsec, e, he⟩ | ⟨e, he⟩ | ⟨hsec, v, e, hv1, he⟩ | ⟨cmd2, e, hp2, he⟩
  · obtain ⟨v, hv1, _⟩ := hv hsec
    rw [hv1] at he
    cases he
  · rw [hp] at he
    cases he
  · obtain ⟨v2, hv2, he2⟩ := hv hsec
    rw [hv1] at hv2
    cases hv2
    rw [he2] at he
    cases he
  · rw [hp] at hp2
    cases hp2
    rw [hs] at he
    cases he

theorem events_decompose {a b pre post : List Event} {x : Event}
    (ha : x ∉ a) (hb : x ∉ b) (h : a ++ x :: b = pre ++ x :: post) :
    pre = a ∧ post = b := by
  induction a generalizing pre with
  | nil =>
    cases pre with
    | nil =>
      simp only [List.nil_append, List.cons.injEq, true_and] at h
      exact ⟨rfl, h.symm⟩
    | cons y pre2 =>
      simp only [List.nil_append, List.cons_append, List.cons.injEq] at h
      exact absurd (h.2 ▸ (by simp : x ∈ pre2 ++ x :: post)) hb
  | cons y a2 ih =>
    cases pre with
    | nil =>
      simp only [List.cons_append, List.nil_append, List.cons.injEq] at h
      exact absurd (h.1 ▸ (by simp : y ∈ y :: a2)) ha
    | cons z pre2 =>
      simp only [List.cons_append, List.cons.injEq] at h
      have hx : x ∉ a2 := fun hmem => ha (List.mem_cons_of_mem _ hmem)
      obtain ⟨h1, h2⟩ := ih hx h.2
      exact ⟨by rw [h1, h.1], h2⟩

theorem ensure_order_of_absent {l pre post : List Event} (hl : Event.ensure ∉ l)
    (h : l = pre ++ Event.ensure :: post) :
    Event.parse ∈ pre ∧ Event.ensure ∉ pre ∧ Event.ensure ∉ post := by
  exact absurd (h ▸ (by simp : Event.ensure ∈ pre ++ Event.ensure :: post)) hl

theorem ensure_order_of_shape (h : Handler) (tail pre post : List Event)
    (htail : Event.ensure ∉ tail)
    (hev : verifierEvents h ++ [.parse] ++ ensureEvents h ++ tail
      = pre ++ Event.ensure :: post) :
    Event.parse ∈ pre ∧ Event.ensure ∉ pre ∧ Event.ensure ∉ post := by
  by_cases hsec : h.slackSignature = ""
  · refine ensure_order_of_absent ?_ hev
    simp [verifierEvents, ensureEvents, hsec, htail]
  · have hev2 : [Event.newVerifier, Event.parse] ++ Event.ensure :: tail
        = pre ++ Event.ensure :: post := by
      rw [← hev]
      simp [verifierEvents, ensureEvents, hsec]
    obtain ⟨h1, h2⟩ := events_decompose (by simp) htail hev2
    subst h1 h2
    exact ⟨by simp, by simp, htail⟩

/-- C7. Whenever verifier construction, form parsing, signature finalization or argument
tokenization fails on a request, `ServeHTTP` writes an error response and invokes no
command handler. A handler is never invoked more than once, and it is invoked exactly when
the request passed all four stages and the registry lookup. Signature finalization happens
at most once, and only after the form parsing that consumed the body: in the recorded
events every `ensure` has a `parse` before it and no other `ensure` around it. -/
theorem handler_runs_only_after_all_stages (L : Lib) (Commands : List (String × Command))
    (h : Handler) (w : ResponseWriter) (req : Request)
    (hw : w.calls = []) :
    (StageFails L h req →
      IsErrorResponse L (ServeHTTP L Commands h w req).w ∧
      (ServeHTTP L Commands h w req).invocations = 0) ∧
    (ServeHTTP L Commands h w req).invocations ≤ 1 ∧
    ((ServeHTTP L Commands h w req).invocations = 1 ↔
      ∃ cmd args prog, Reaches L Commands h req cmd args prog) ∧
    (∀ pre post, (ServeHTTP L Commands h w req).events = pre ++ Event.ensure :: post →
      Event.parse ∈ pre ∧ Event.ensure ∉ pre ∧ Event.ensure ∉ post) := by
  rcases serve_cases L Commands h w req with
    ⟨e, hsec, hv, hserve⟩ | ⟨e, hp, hserve⟩ | ⟨v, cmd, e, hsec, hv, hp, he, hserve⟩ |
    ⟨cmd, e, hp, hs, hserve⟩ | ⟨cmd, args, hd, hl, hserve⟩ |
    ⟨cmd, args, prog, flags, msg, err, hr, hrun, hserve⟩
  · -- verifier construction failed
    have hinv : (ServeHTTP L Commands h w req).invocations = 0 := by
      rw [hserve]
      simp [World.invocations, Event.isInvoke, List.filter]
    refine ⟨fun _ => ⟨?_, hinv⟩, by omega, ⟨fun h1 => by omega, ?_⟩, ?_⟩
    · rw [hserve]
      exact Error_isErrorResponse L w 400 _ hw (by norm_num)
    · rintro ⟨cmd, args, prog, ⟨hv2, _, _⟩, _⟩
      obtain ⟨v, hv3, _⟩ := hv2 hsec
      rw [hv] at hv3
      cases hv3
    · intro pre post hev
      rw [hserve] at hev
      exact ensure_order_of_absent (by simp) hev
  · -- form parsing failed
    have hinv : (ServeHTTP L Commands h w req).invocations = 0 := by
      rw [hserve]
      by_cases hsec : h.slackSignature = "" <;>
        simp [World.invocations, Event.isInvoke, List.filter, verifierEvents, hsec]
    refine ⟨fun _ => ⟨?_, hinv⟩, by omega, ⟨fun h1 => by omega, ?_⟩, ?_⟩
    · rw [hserve]
      exact Error_isErrorResponse L w 400 _ hw (by norm_num)
    · rintro ⟨cmd, args, prog, ⟨_, hp2, _⟩, _⟩
      rw [hp] at hp2
      cases hp2
    · intro pre post hev
      rw [hserve] at hev
      refine ensure_order_of_absent ?_ hev
      by_cases hsec : h.slackSignature = "" <;> simp [verifierEvents, hsec]
  · -- signature finalization failed
    have hinv : (ServeHTTP L Commands h w req).invocations = 0 := by
      rw [hserve]
      simp [World.invocations, Event.isInvoke, List.filter]
    refine ⟨fun _ => ⟨?_, hinv⟩, by omega, ⟨fun h1 => by omega, ?_⟩, ?_⟩
    · rw [hserve]
      exact Error_isErrorResponse L w 401 _ hw (by norm_num)
    · rintro ⟨cmd2, args, prog, ⟨hv2, _, _⟩, _⟩
      obtain ⟨v2, hv3, he2⟩ := hv2 hsec
      rw [hv] at hv3
      cases hv3
      rw [he] at he2
      cases he2
    · intro pre post hev
      rw [hserve] at hev
      have hev2 : [Event.newVerifier, Event.parse] ++ Event.ensure ::
          [Event.log ("Error validating request: " ++ L.fmtPlusV e)]
          = pre ++ Event.ensure :: post := by
        simpa using hev
      obtain ⟨h1, h2⟩ := events_decompose (by simp) (by simp) hev2
      subst h1 h2
      exact ⟨by simp, by simp, by simp⟩
  · -- tokenization failed
    have hinv : (ServeHTTP L Commands h w req).invocations = 0 := by
      rw [hserve]
      exact invocations_of_unrecognized h
    refine ⟨fun _ => ⟨?_, hinv⟩, by omega, ⟨fun h1 => by omega, ?_⟩, ?_⟩
    · rw [hserve]
      exact Error_isErrorResponse L w 400 _ hw (by norm_num)
    · rintro ⟨cmd2, args, prog, ⟨_, hp2, hs2⟩, _⟩
      rw [hp] at hp2
      cases hp2
      rw [hs] at hs2
      cases hs2
    · intro pre post hev
      rw [hserve] at hev
      exact ensure_order_of_shape h [.split] pre post (by simp) hev
  · -- the command is not registered
    have hinv : (ServeHTTP L Commands h w req).invocations = 0 := by
      rw [hserve]
      exact invocations_of_unrecognized h
    refine ⟨fun hf => absurd hd (fun hd2 => stageFails_not_dispatches L h req cmd args hf hd2),
      by omega, ⟨fun h1 => by omega, ?_⟩, ?_⟩
    · rintro ⟨cmd2, args2, prog, ⟨_, hp2, _⟩, hl2⟩
      rw [hd.2.1] at hp2
      cases hp2
      rw [hl] at hl2
      cases hl2
    · intro pre post hev
      rw [hserve] at hev
      exact ensure_order_of_shape h [.split] pre post (by simp) hev
  · -- the handler runs
    have hinv : (ServeHTTP L Commands h w req).invocations = 1 := by
      rw [hserve]
      exact invocations_of_reached h _
    refine ⟨fun hf => absurd hr.1 (fun hd2 => stageFails_not_dispatches L h req cmd args hf hd2),
      by omega, ⟨fun _ => ⟨cmd, args, prog, hr⟩, fun _ => hinv⟩, ?_⟩
    intro pre post hev
    rw [hserve] at hev
    exact ensure_order_of_shape h [.split, .invoke (TrimPrefix cmd.Command "/")] pre post
      (by simp) hev

/-- Witness for C7: a signed request whose signature does not match fails at the
finalization stage; it gets an error response and no handler runs. -/
theorem handler_runs_only_after_all_stages_witness :
    StageFails sampleLib ⟨"s3cret"⟩
      (signedRequest "command=/test&text=" "v0=00" "1700000000") ∧
    IsErrorResponse sampleLib (ServeHTTP sampleLib (Commands sampleLib) ⟨"s3cret"⟩ .fresh
      (signedRequest "command=/test&text=" "v0=00" "1700000000")).w ∧
    (ServeHTTP sampleLib (Commands sampleLib) ⟨"s3cret"⟩ .fresh
      (signedRequest "command=/test&text=" "v0=00" "1700000000")).invocations = 0 :=
  have hf : StageFails sampleLib ⟨"s3cret"⟩
      (signedRequest "command=/test&text=" "v0=00" "1700000000") :=
    Or.inr (Or.inr (Or.inl ⟨by decide, ⟨"v0=00", "1700000000", "s3cret", ""⟩,
      .text "Expected signing signature does not match computed signature", rfl, rfl⟩))
  ⟨hf, (handler_runs_only_after_all_stages sampleLib (Commands sampleLib) ⟨"s3cret"⟩ .fresh
    (signedRequest "command=/test&text=" "v0=00" "1700000000") rfl).1 hf⟩

theorem JSON_status_cases (L : Lib) (w : ResponseWriter) (code : Int) (msg : Payload)
    (hw : w.calls = []) :
    (JSON L w code msg).1.status = some code ∨ (JSON L w code msg).1.status = some 500 := by
  cases hm : jsonMarshal L msg with
  | error e =>
    right
    rw [JSON_error L w code msg e hm]
    simp [ResponseWriter.status, hw]
  | ok p => exact Or.inl (JSON_ok_status L w code msg p hm hw).1

/-- C8. Status mapping of the stages before dispatch, each stage being judged once the
stages before it have passed. With a secret configured, a verifier that cannot be built
from the request headers gives HTTP 400; a form body that cannot be parsed gives 400 (with the message
`invalid slash request` once the verifier stage has passed); a finalized signature that does not match what was parsed gives 401; an argument text that
cannot be tokenized, on a request whose signature check passed, gives 400. In each case
the body is the error object whose `code` field is the status written. With no secret
configured no response has status 401. -/
theorem stage_status_mapping (L : Lib) (Commands : List (String × Command))
    (h : Handler) (w : ResponseWriter) (req : Request)
    (hw : w.calls = []) :
    (∀ e, h.slackSignature ≠ "" →
      L.NewSecretsVerifier req.Header h.slackSignature = .error e →
      (ServeHTTP L Commands h w req).w.status = some 400 ∧
      (ServeHTTP L Commands h w req).w.body = errorBody L 400 e.Error) ∧
    (∀ e, (L.SlashCommandParse req).2 = .error e →
      (ServeHTTP L Commands h w req).w.status = some 400 ∧
      ((h.slackSignature ≠ "" →
          ∃ v, L.NewSecretsVerifier req.Header h.slackSignature = .ok v) →
        (ServeHTTP L Commands h w req).w.body = errorBody L 400 "invalid slash request")) ∧
    (∀ v cmd e, h.slackSignature ≠ "" →
      L.NewSecretsVerifier req.Header h.slackSignature = .ok v →
      (L.SlashCommandParse req).2 = .ok cmd →
      L.Ensure (v.Write (L.SlashCommandParse req).1) = some e →
      (ServeHTTP L Commands h w req).w.status = some 401 ∧
      (ServeHTTP L Commands h w req).w.body =
        errorBody L 401 "signature does not match request") ∧
    (∀ cmd e, (h.slackSignature ≠ "" →
        ∃ v, L.NewSecretsVerifier req.Header h.slackSignature = .ok v ∧
          L.Ensure (v.Write (L.SlashCommandParse req).1) = none) →
      (L.SlashCommandParse req).2 = .ok cmd →
      L.Split cmd.Text = .error e →
      (ServeHTTP L Commands h w req).w.status = some 400 ∧
      (ServeHTTP L Commands h w req).w.body =
        errorBody L 400 ("unable to parse command arguments: " ++ L.fmtV e)) ∧
    (StageFails L h req →
      ∃ code message, (code = 400 ∨ code = 401) ∧
        (ServeHTTP L Commands h w req).w.status = some code ∧
        (ServeHTTP L Commands h w req).w.body =
          "\x7b\"code\":" ++ Itoa code ++ ",\"error\":" ++ L.jsonString message ++ "\x7d") ∧
    (h.slackSignature = "" → (ServeHTTP L Commands h w req).w.status ≠ some 401) := by
  refine ⟨?_, ?_, ?_, ?_, ?_, ?_⟩
  · intro e hsec hv
    rw [serve_verifier_error L Commands h w req e hsec hv]
    exact ⟨Error_status L w 400 _ hw, Error_body L w 400 _ hw⟩
  · intro e hp
    refine ⟨?_, ?_⟩
    · rcases serve_cases L Commands h w req with
        ⟨e2, _, _, hserve⟩ | ⟨e2, _, hserve⟩ | ⟨v, cmd, e2, _, _, hp2, _, _⟩ |
        ⟨cmd, e2, hp2, _, _⟩ | ⟨cmd, args, hd, _, _⟩ |
        ⟨cmd, args, prog, flags, msg, err, hr, _, _⟩
      · rw [hserve]
        exact Error_status L w 400 _ hw
      · rw [hserve]
        exact Error_status L w 400 _ hw
      · rw [hp] at hp2
        cases hp2
      · rw [hp] at hp2
        cases hp2
      · have hp2 := hd.2.1
        rw [hp] at hp2
        cases hp2
      · have hp2 := hr.1.2.1
        rw [hp] at hp2
        cases hp2
    · intro hb
      rw [serve_parse_error L Commands h w req e hb hp]
      exact Error_body L w 400 _ hw
  · intro v cmd e hsec hv hp he
    rw [serve_ensure_error L Commands h w req v cmd e hsec hv hp he]
    exact ⟨Error_status L w 401 _ hw, Error_body L w 401 _ hw⟩
  · intro cmd e hv hp hs
    rw [serve_split_error L Commands h w req cmd e hv hp hs]
    exact ⟨Error_status L w 400 _ hw, Error_body L w 400 _ hw⟩
  · intro hf
    rcases serve_cases L Commands h w req with
      ⟨e, _, _, hserve⟩ | ⟨e, _, hserve⟩ | ⟨v, cmd, e, _, _, _, _, hserve⟩ |
      ⟨cmd, e, _, _, hserve⟩ | ⟨cmd, args, hd, _, _⟩ |
      ⟨cmd, args, prog, flags, msg, err, hr, _, _⟩
    · rw [hserve]
      exact ⟨400, _, Or.inl rfl, Error_status L w 400 _ hw, Error_body L w 400 _ hw⟩
    · rw [hserve]
      exact ⟨400, _, Or.inl rfl, Error_status L w 400 _ hw, Error_body L w 400 _ hw⟩
    · rw [hserve]
      exact ⟨401, _, Or.inr rfl, Error_status L w 401 _ hw, Error_body L w 401 _ hw⟩
    · rw [hserve]
      exact ⟨400, _, Or.inl rfl, Error_status L w 400 _ hw, Error_body L w 400 _ hw⟩
    · exact absurd hd (fun hd2 => stageFails_not_dispatches L h req cmd args hf hd2)
    · exact absurd hr.1 (fun hd2 => stageFails_not_dispatches L h req cmd args hf hd2)
  · intro hsec
    rcases serve_cases L Commands h w req with
      ⟨e, hne, _, _⟩ | ⟨e, _, hserve⟩ | ⟨v, cmd, e, hne, _, _, _, _⟩ |
      ⟨cmd, e, _, _, hserve⟩ | ⟨cmd, args, _, _, hserve⟩ |
      ⟨cmd, args, prog, flags, msg, err, _, _, hserve⟩
    · exact absurd hsec hne
    · rw [hserve, Error_status L w 400 _ hw]
      simp
    · exact absurd hsec hne
    · rw [hserve, Errorf, Error_status L w 400 _ hw]
      simp
    · rw [hserve, Errorf, Error_status L w 400 _ hw]
      simp
    · rw [hserve]
      simp only
      split
      · rw [Errorf, Error_status L w 500 _ hw]
        simp
      · split
        · rcases JSON_status_cases L w 200 (.codeResp 200 "") hw with h1 | h1 <;>
            simp [Code, h1]
        · rename_i m _
          rcases JSON_status_cases L w 200 (.slackMsg m) hw with h1 | h1 <;> simp [h1]

/-- Witness for C8: with the secret `s3cret` configured, a request whose signature does
not match its body is answered 401 with the error object of code 401. -/
theorem stage_status_mapping_witness :
    sampleLib.NewSecretsVerifier
      (signedRequest "command=/test&text=" "v0=00" "1700000000").Header "s3cret"
      = .ok ⟨"v0=00", "1700000000", "s3cret", ""⟩ ∧
    (sampleLib.SlashCommandParse
      (signedRequest "command=/test&text=" "v0=00" "1700000000")).2 = .ok ⟨"/test", ""⟩ ∧
    (ServeHTTP sampleLib (Commands sampleLib) ⟨"s3cret"⟩ .fresh
      (signedRequest "command=/test&text=" "v0=00" "1700000000")).w.status = some 401 ∧
    (ServeHTTP sampleLib (Commands sampleLib) ⟨"s3cret"⟩ .fresh
      (signedRequest "command=/test&text=" "v0=00" "1700000000")).w.body =
      errorBody sampleLib 401 "signature does not match request" :=
  ⟨rfl, rfl,
    (stage_status_mapping sampleLib (Commands sampleLib) ⟨"s3cret"⟩ .fresh
      (signedRequest "command=/test&text=" "v0=00" "1700000000") rfl).2.2.1
      ⟨"v0=00", "1700000000", "s3cret", ""⟩ ⟨"/test", ""⟩
      (.text "Expected signing signature does not match computed signature")
      (by decide) rfl rfl rfl⟩

/-! ## `AllowMethods` -/

theorem collect_fold_spec (L : Lib) (methods : List String) (st : List String × List String)
    (hsame : ∀ x, x ∈ st.1 ↔ x ∈ st.2) (hnd : st.2.Nodup) :
    (∀ x, x ∈ (methods.foldl
        (fun (st : List String × List String) method =>
          if L.ToUpper method ∈ st.1 then st
          else (L.ToUpper method :: st.1, st.2 ++ [L.ToUpper method])) st).1 ↔
      x ∈ (methods.foldl
        (fun (st : List String × List String) method =>
          if L.ToUpper method ∈ st.1 then st
          else (L.ToUpper method :: st.1, st.2 ++ [L.ToUpper method])) st).2) ∧
    (methods.foldl
        (fun (st : List String × List String) method =>
          if L.ToUpper method ∈ st.1 then st
          else (L.ToUpper method :: st.1, st.2 ++ [L.ToUpper method])) st).2.Nodup ∧
    (∀ x, x ∈ (methods.foldl
        (fun (st : List String × List String) method =>
          if L.ToUpper method ∈ st.1 then st
          else (L.ToUpper method :: st.1, st.2 ++ [L.ToUpper method])) st).2 ↔
      x ∈ st.2 ∨ x ∈ methods.map L.ToUpper) := by
  induction methods generalizing st with
  | nil => simpa using ⟨hsame, hnd⟩
  | cons m ms ih =>
    simp only [List.foldl_cons, List.map_cons, List.mem_cons]
    by_cases hm : L.ToUpper m ∈ st.1
    · simp only [hm, if_true]
      obtain ⟨h1, h2, h3⟩ := ih st hsame hnd
      refine ⟨h1, h2, fun x => ?_⟩
      rw [h3 x]
      constructor
      · rintro (hx | hx)
        · exact Or.inl hx
        · exact Or.inr (Or.inr hx)
      · rintro (hx | hx | hx)
        · exact Or.inl hx
        · exact Or.inl (hx ▸ (hsame _).1 hm)
        · exact Or.inr hx
    · simp only [hm, if_false]
      have hsame2 : ∀ x, x ∈ (L.ToUpper m :: st.1, st.2 ++ [L.ToUpper m]).1 ↔
          x ∈ (L.ToUpper m :: st.1, st.2 ++ [L.ToUpper m]).2 := by
        intro x
        simp only [List.mem_cons, List.mem_append, List.mem_singleton, hsame x]
        tauto
      have hnd2 : (L.ToUpper m :: st.1, st.2 ++ [L.ToUpper m]).2.Nodup := by
        have hm2 : L.ToUpper m ∉ st.2 := fun hx => hm ((hsame _).2 hx)
        simp only [List.nodup_append, hnd, List.nodup_singleton, List.disjoint_singleton, true_and]
        exact fun hx => hm2 hx
      obtain ⟨h1, h2, h3⟩ := ih _ hsame2 hnd2
      refine ⟨h1, h2, fun x => ?_⟩
      rw [h3 x]
      simp only [List.mem_append, List.mem_singleton]
      tauto

theorem mem_want_iff (L : Lib) (methods : List String) (x : String) :
    x ∈ AllowMethods.want L methods ↔ x ∈ methods.map L.ToUpper := by
  obtain ⟨h1, _, h3⟩ := collect_fold_spec L methods ([], []) (fun _ => Iff.rfl) List.nodup_nil
  have := (h1 x).trans (h3 x)
  simpa [AllowMethods.want, AllowMethods.collect] using this

theorem mem_allowed_iff (L : Lib) (methods : List String) (x : String) :
    x ∈ AllowMethods.allowed L methods ↔ x ∈ methods.map L.ToUpper := by
  obtain ⟨_, _, h3⟩ := collect_fold_spec L methods ([], []) (fun _ => Iff.rfl) List.nodup_nil
  have := h3 x
  simp only [List.not_mem_nil, false_or] at this
  rw [AllowMethods.allowed, List.mem_insertionSort]
  simpa [AllowMethods.collect] using this

theorem allowed_sorted (L : Lib) (methods : List String) :
    (AllowMethods.allowed L methods).Sorted (fun a b => a < b) := by
  obtain ⟨_, h2, _⟩ := collect_fold_spec L methods ([], []) (fun _ => Iff.rfl) List.nodup_nil
  have hs : (AllowMethods.allowed L methods).Sorted (fun a b => a ≤ b) :=
    List.sorted_insertionSort (fun a b : String => a ≤ b) _
  have hn : (AllowMethods.allowed L methods).Nodup :=
    (List.perm_insertionSort (fun a b : String => a ≤ b) _).nodup_iff.2 h2
  exact hs.lt_of_le hn

theorem allow_headers_added (w : ResponseWriter) (l : List String) :
    (l.foldl (fun w method => w.HeaderAdd "Allow" method) w).header "Allow"
        = w.header "Allow" ++ l ∧
      (l.foldl (fun w method => w.HeaderAdd "Allow" method) w).calls = w.calls := by
  induction l generalizing w with
  | nil => simp
  | cons m l ih =>
    obtain ⟨h1, h2⟩ := ih (w.HeaderAdd "Allow" m)
    simp only [List.foldl_cons]
    rw [h1, h2]
    simp [ResponseWriter.HeaderAdd, Header.Add]

/-- C10, the claim as stated fails: with the allowed methods `["post"]`, a request whose
method is `post`, one of the listed methods, is rejected with HTTP 405 and the wrapped
handler does not run. -/
theorem listed_lower_case_method_is_rejected :
    "post" ∈ ["post"] ∧
    (AllowMethods sampleLib ["post"] (ServeHTTP sampleLib sampleCommands ⟨""⟩) .fresh
      { Method := "post", Header := Header.empty, Body := "command=/quiet&text=" }
      ).w.status = some 405 ∧
    (AllowMethods sampleLib ["post"] (ServeHTTP sampleLib sampleCommands ⟨""⟩) .fresh
      { Method := "post", Header := Header.empty, Body := "command=/quiet&text=" }
      ).w.body = "\x7b\"code\":405,\"error\":\"method not allowed\"\x7d" ∧
    (AllowMethods sampleLib ["post"] (ServeHTTP sampleLib sampleCommands ⟨""⟩) .fresh
      { Method := "post", Header := Header.empty, Body := "command=/quiet&text=" }
      ).w.header "Allow" = ["POST"] ∧
    (AllowMethods sampleLib ["post"] (ServeHTTP sampleLib sampleCommands ⟨""⟩) .fresh
      { Method := "post", Header := Header.empty, Body := "command=/quiet&text=" }
      ).events = [] := by
  refine ⟨by decide, ?_, ?_, ?_, ?_⟩ <;> decide

/-- C10, amended. The middleware `AllowMethods(ms...)` passes a request to the wrapped
handler, writing nothing itself, exactly when the request method equals the upper-cased
form of one of `ms` (the method of the request is compared as it is). Otherwise the
wrapped handler is not invoked (the outcome is the same for every wrapped handler and
records no event), the response is HTTP 405 with the error `method not allowed`, and the
values added under `Allow` are the upper-cased methods of `ms`, each once, in strictly
ascending order. -/
theorem AllowMethods_compares_with_upper_cased (L : Lib) (ms : List String)
    (next : HttpHandler) (w : ResponseWriter) (req : Request) :
    (req.Method ∈ ms.map L.ToUpper → AllowMethods L ms next w req = next w req) ∧
    (req.Method ∉ ms.map L.ToUpper →
      (∀ next2 : HttpHandler, AllowMethods L ms next2 w req = AllowMethods L ms next w req) ∧
      (AllowMethods L ms next w req).events = [] ∧
      (AllowMethods L ms next w req).w.calls =
        w.calls ++ [.writeHeader 405, .write (errorBody L 405 "method not allowed")] ∧
      (w.calls = [] →
        (AllowMethods L ms next w req).w.status = some 405 ∧
        (AllowMethods L ms next w req).w.body = errorBody L 405 "method not allowed") ∧
      (AllowMethods L ms next w req).w.header "Allow" =
        w.header "Allow" ++ AllowMethods.allowed L ms) ∧
    (AllowMethods.allowed L ms).Sorted (fun a b => a < b) ∧
    (∀ x, x ∈ AllowMethods.allowed L ms ↔ x ∈ ms.map L.ToUpper) := by
  refine ⟨?_, ?_, allowed_sorted L ms, mem_allowed_iff L ms⟩
  · intro hmem
    have hwant : req.Method ∈ AllowMethods.want L ms := (mem_want_iff L ms _).2 hmem
    simp [AllowMethods, AllowMethods.invalidate, hwant]
  · intro hmem
    have hwant : req.Method ∉ AllowMethods.want L ms :=
      fun hx => hmem ((mem_want_iff L ms _).1 hx)
    have hadd := allow_headers_added w (AllowMethods.allowed L ms)
    have hrej : ∀ next2 : HttpHandler, AllowMethods L ms next2 w req =
        ⟨(Error L ((AllowMethods.allowed L ms).foldl
          (fun w method => w.HeaderAdd "Allow" method) w) 405 "method not allowed").1, []⟩ := by
      intro next2
      simp [AllowMethods, AllowMethods.invalidate, hwant]
    refine ⟨fun next2 => by rw [hrej next2, hrej next], ?_, ?_, ?_, ?_⟩
    · rw [hrej next]
    · rw [hrej next]
      simp [Error_eq, hadd.2]
    · intro hw
      rw [hrej next]
      have hc : ((AllowMethods.allowed L ms).foldl
          (fun w method => w.HeaderAdd "Allow" method) w).calls = [] := by
        rw [hadd.2, hw]
      exact ⟨Error_status L _ 405 _ hc, Error_body L _ 405 _ hc⟩
    · rw [hrej next]
      simp only [Error_eq, Header.Set]
      rw [if_neg (by decide), if_neg (by decide)]
      exact hadd.1

/-- Witness for the amended C10: `AllowPOST` in front of the dispatcher, a `GET` request. -/
theorem AllowMethods_compares_with_upper_cased_witness :
    "GET" ∉ ["POST"].map sampleLib.ToUpper ∧
    (AllowPOST sampleLib (ServeHTTP sampleLib sampleCommands ⟨""⟩) .fresh
      { Method := "GET", Header := Header.empty, Body := "" }).w.status = some 405 ∧
    (AllowPOST sampleLib (ServeHTTP sampleLib sampleCommands ⟨""⟩) .fresh
      { Method := "GET", Header := Header.empty, Body := "" }).w.header "Allow"
      = ResponseWriter.fresh.header "Allow" ++ AllowMethods.allowed sampleLib ["POST"] :=
  have hne : "GET" ∉ ["POST"].map sampleLib.ToUpper := by decide
  have t := (AllowMethods_compares_with_upper_cased sampleLib ["POST"]
    (ServeHTTP sampleLib sampleCommands ⟨""⟩) .fresh
    { Method := "GET", Header := Header.empty, Body := "" }).2.1 hne
  ⟨hne, (t.2.2.2.1 rfl).1, t.2.2.2.2⟩

end Wadjet
